import Mathlib

/-!
# Toolhive: transport factory, demo services and e2e helpers

A shallow embedding of

* `pkg/transport/factory.go` (`Factory.Create`),
* `demo/backend-service/main.go` (`validateToken`, `requireAuth`, the routes of `main`),
* `test/e2e/helpers.go` (`StopAndRemoveMCPServer`, `GetMCPServerURL`,
  `cleanupSpecificGroup`),
* `demo/mcp-server/main.go` (`handleGetBackendData`), and
* the bulk deletion of package `workloads`, which is described by the specification only,

together with the properties of the specification that concern them.

Go values are embedded as follows.  A Go `string` is a Lean `String`, an `int`
is an `Int`, a slice is a `List`, a map that is only measured with `len` or
handed on is an association list.  A Go `(T, error)` result is either a pair of
options (`Factory.Create`, where the specification speaks about nil-ness of both
components) or an `Except` value.  Objects of packages outside the repository
(deployer, HTTP handlers, middleware functions) are values of type parameters.
Calls to collaborators are recorded in the order they are made; what a collaborator
answers is a parameter.
-/

set_option autoImplicit false

namespace Toolhive

/-! ## Package `errors` and package `types` (declarations used by the factory) -/

/-- A Go `error` value, identified by the text its `Error()` method returns. -/
structure GoError where
  msg : String
  deriving DecidableEq, Repr

namespace errors

/-- Modelled from the spec: the package `pkg/transport/errors` is not among the
sources; section 4.1 names its sentinel the "unsupported transport" error. -/
def ErrUnsupportedTransport : GoError := ⟨"unsupported transport"⟩

end errors

namespace types

/-- Modelled from the spec: `types.TransportType` is declared in `pkg/transport/types`,
which is not among the sources.  Sections 3 and 6 give it as the string enumeration
`stdio | sse | streamable-http | inspector`; being a Go string type it also admits
every other string. -/
abbrev TransportType := String

/-- Modelled from the spec: the constant for the kind `stdio`. -/
def TransportTypeStdio : TransportType := "stdio"

/-- Modelled from the spec: the constant for the kind `sse`. -/
def TransportTypeSSE : TransportType := "sse"

/-- Modelled from the spec: the constant for the kind `streamable-http`. -/
def TransportTypeStreamableHTTP : TransportType := "streamable-http"

/-- Modelled from the spec: the constant for the kind `inspector`. -/
def TransportTypeInspector : TransportType := "inspector"

/-- Modelled from the spec: `types.Config` (section 3, TransportConfig, and section 6),
with the field names `Factory.Create` reads (`Type_` is the Go field `Type`, a reserved
word here).  `δ` is the deployer, `η` an HTTP handler, `μ` a middleware function and `ρ`
the proxy mode. -/
structure Config (δ η μ ρ : Type) where
  Type_ : TransportType
  Host : String
  ProxyPort : Int
  TargetPort : Int
  TargetHost : String
  Deployer : δ
  Debug : Bool
  Middlewares : List μ
  NamedMiddlewares : List (String × μ)
  PrometheusHandler : η
  AuthInfoHandler : η
  ProxyMode : ρ
  deriving DecidableEq, Repr

/-- The constructor invocation that produced a transport object, with its arguments
in source order.  The bodies of `NewStdioTransport` and `NewHTTPTransport` are not
among the sources, so an object is identified with the call that built it. -/
inductive Construction (δ η μ : Type) where
  | NewStdioTransport (host : String) (proxyPort : Int) (deployer : δ) (debug : Bool)
      (prometheusHandler : η) (middlewares : List μ)
  | NewHTTPTransport (transportType : TransportType) (host : String) (proxyPort : Int)
      (targetPort : Int) (deployer : δ) (debug : Bool) (targetHost : String)
      (authInfoHandler : η) (prometheusHandler : η) (middlewares : List μ)
  deriving DecidableEq, Repr

/-- A method invocation received by a transport object after its construction. -/
inductive MethodCall (μ ρ : Type) where
  | SetProxyMode (mode : ρ)
  | SetNamedMiddlewares (named : List (String × μ))
  deriving DecidableEq, Repr

/-- The dynamic (concrete) type behind a `types.Transport` interface value. -/
inductive ConcreteType where
  | StdioTransport
  | HTTPTransport
  deriving DecidableEq, Repr

/-- A `types.Transport` value: the object as built, and the method calls it has
received since, oldest first. -/
structure Transport (δ η μ ρ : Type) where
  built : Construction δ η μ
  calls : List (MethodCall μ ρ)
  deriving DecidableEq, Repr

variable {δ η μ ρ : Type}

/-- The default middleware chain a constructor was given (its variadic argument). -/
def Construction.middlewares : Construction δ η μ → List μ
  | .NewStdioTransport _ _ _ _ _ ms => ms
  | .NewHTTPTransport _ _ _ _ _ _ _ _ _ ms => ms

/-- The concrete type a constructor returns. -/
def Construction.concreteType : Construction δ η μ → ConcreteType
  | .NewStdioTransport .. => .StdioTransport
  | .NewHTTPTransport .. => .HTTPTransport

/-- The dynamic type of a transport value. -/
def Transport.concreteType (t : Transport δ η μ ρ) : ConcreteType :=
  t.built.concreteType

/-- The argument of a `SetProxyMode` call, if the call is one. -/
def MethodCall.proxyMode? : MethodCall μ ρ → Option ρ
  | .SetProxyMode m => some m
  | .SetNamedMiddlewares _ => none

/-- The argument of a `SetNamedMiddlewares` call, if the call is one. -/
def MethodCall.namedMiddlewares? : MethodCall μ ρ → Option (List (String × μ))
  | .SetProxyMode _ => none
  | .SetNamedMiddlewares n => some n

/-- `tr.SetProxyMode(mode)`: the object receives the call. -/
def Transport.SetProxyMode (t : Transport δ η μ ρ) (mode : ρ) : Transport δ η μ ρ :=
  { t with calls := t.calls ++ [.SetProxyMode mode] }

/-- `namedSupport.SetNamedMiddlewares(named)`: the object receives the call. -/
def Transport.SetNamedMiddlewares (t : Transport δ η μ ρ) (named : List (String × μ)) :
    Transport δ η μ ρ :=
  { t with calls := t.calls ++ [.SetNamedMiddlewares named] }

end types

/-! ## `pkg/transport/factory.go` -/

namespace transport

open types

variable {δ η μ ρ : Type}

/-- `NewStdioTransport(host, proxyPort, deployer, debug, prometheusHandler, middlewares...)`:
a fresh object that has received no call yet. -/
def NewStdioTransport (host : String) (proxyPort : Int) (deployer : δ) (debug : Bool)
    (prometheusHandler : η) (middlewares : List μ) : Transport δ η μ ρ :=
  { built := .NewStdioTransport host proxyPort deployer debug prometheusHandler middlewares,
    calls := [] }

/-- `NewHTTPTransport(transportType, host, proxyPort, targetPort, deployer, debug, targetHost,
authInfoHandler, prometheusHandler, middlewares...)`: a fresh object that has received no
call yet. -/
def NewHTTPTransport (transportType : TransportType) (host : String) (proxyPort : Int)
    (targetPort : Int) (deployer : δ) (debug : Bool) (targetHost : String)
    (authInfoHandler : η) (prometheusHandler : η) (middlewares : List μ) :
    Transport δ η μ ρ :=
  { built := .NewHTTPTransport transportType host proxyPort targetPort deployer debug
      targetHost authInfoHandler prometheusHandler middlewares,
    calls := [] }

/-- `(*Factory).Create`.  The result is the Go pair `(types.Transport, error)`; `none`
is `nil`.  `namedSupport` tells which concrete types implement the optional interface
`types.NamedMiddlewareSupport`, that is, for which dynamic types the type assertion
`transport.(types.NamedMiddlewareSupport)` succeeds. -/
def Factory.Create (namedSupport : ConcreteType → Bool) (config : Config δ η μ ρ) :
    Option (Transport δ η μ ρ) × Option GoError :=
  -- lines 62-67, reached by the first three cases of the switch
  let finish (transport : Transport δ η μ ρ) : Option (Transport δ η μ ρ) × Option GoError :=
    if namedSupport transport.concreteType = true ∧ config.NamedMiddlewares.length > 0 then
      (some (transport.SetNamedMiddlewares config.NamedMiddlewares), none)
    else
      (some transport, none)
  if config.Type_ = TransportTypeStdio then
    let tr : Transport δ η μ ρ :=
      NewStdioTransport config.Host config.ProxyPort config.Deployer config.Debug
        config.PrometheusHandler config.Middlewares
    let tr := tr.SetProxyMode config.ProxyMode
    finish tr
  else if config.Type_ = TransportTypeSSE then
    finish (NewHTTPTransport TransportTypeSSE config.Host config.ProxyPort config.TargetPort
      config.Deployer config.Debug config.TargetHost config.AuthInfoHandler
      config.PrometheusHandler config.Middlewares)
  else if config.Type_ = TransportTypeStreamableHTTP then
    finish (NewHTTPTransport TransportTypeStreamableHTTP config.Host config.ProxyPort
      config.TargetPort config.Deployer config.Debug config.TargetHost config.AuthInfoHandler
      config.PrometheusHandler config.Middlewares)
  else if config.Type_ = TransportTypeInspector then
    (none, some errors.ErrUnsupportedTransport)
  else
    (none, some errors.ErrUnsupportedTransport)

/-- The kinds for which the switch of `Factory.Create` builds a transport. -/
def supportedType (t : TransportType) : Prop :=
  t = TransportTypeStdio ∨ t = TransportTypeSSE ∨ t = TransportTypeStreamableHTTP

instance (t : TransportType) : Decidable (supportedType t) := by
  unfold supportedType; infer_instance

/-- The constructor call the specification prescribes for the kinds `sse` and
`streamable-http`: `NewHTTPTransport(c.Type, c.Host, c.ProxyPort, c.TargetPort, c.Deployer,
c.Debug, c.TargetHost, c.AuthInfoHandler, c.PrometheusHandler, c.Middlewares...)`. -/
def specHTTPConstruction (c : Config δ η μ ρ) : Construction δ η μ :=
  .NewHTTPTransport c.Type_ c.Host c.ProxyPort c.TargetPort c.Deployer c.Debug c.TargetHost
    c.AuthInfoHandler c.PrometheusHandler c.Middlewares

/-- The transport `Factory.Create` has when it reaches line 62, for a supported kind. -/
def builtFor (config : Config δ η μ ρ) : Transport δ η μ ρ :=
  if config.Type_ = TransportTypeStdio then
    (NewStdioTransport config.Host config.ProxyPort config.Deployer config.Debug
      config.PrometheusHandler config.Middlewares : Transport δ η μ ρ).SetProxyMode
      config.ProxyMode
  else
    NewHTTPTransport config.Type_ config.Host config.ProxyPort config.TargetPort
      config.Deployer config.Debug config.TargetHost config.AuthInfoHandler
      config.PrometheusHandler config.Middlewares

/-- The arguments of the `SetNamedMiddlewares` calls a transport has received, oldest first. -/
def namedCalls (t : Transport δ η μ ρ) : List (List (String × μ)) :=
  t.calls.filterMap MethodCall.namedMiddlewares?

/-- The arguments of the `SetProxyMode` calls a transport has received, oldest first. -/
def proxyModeCalls (t : Transport δ η μ ρ) : List ρ :=
  t.calls.filterMap MethodCall.proxyMode?

/-- A concrete configuration used to instantiate the statements below. -/
def sampleConfig (ty : TransportType) (named : List (String × Nat)) : Config Nat Nat Nat String :=
  { Type_ := ty, Host := "127.0.0.1", ProxyPort := 8080, TargetPort := 3000,
    TargetHost := "localhost", Deployer := 0, Debug := false, Middlewares := [1, 2, 3],
    NamedMiddlewares := named, PrometheusHandler := 7, AuthInfoHandler := 9,
    ProxyMode := "sse" }

end transport

/-! ## Go standard library functions used by the demo backend service -/

namespace strings

/-- `strings.HasPrefix(s, p)`. -/
def HasPrefix (s p : String) : Bool :=
  p.toList.isPrefixOf s.toList

/-- `strings.TrimPrefix(s, p)`: `s` without the leading `p`, or `s` itself when it
does not start with `p`. -/
def TrimPrefix (s p : String) : String :=
  if HasPrefix s p then String.mk (s.toList.drop p.length) else s

/-- The pieces of a character sequence between the occurrences of `sep`. -/
def splitChars (sep : Char) : List Char → List (List Char)
  | [] => [[]]
  | c :: cs =>
    if c = sep then [] :: splitChars sep cs
    else
      match splitChars sep cs with
      | [] => [[c]]
      | piece :: pieces => (c :: piece) :: pieces

/-- `strings.Split(s, sep)` for a separator of one character, the only form the
service uses (`strings.Split(claims.Scope, " ")`): the substrings between the
separators, so `n` separators give `n + 1` pieces and the empty string gives `[""]`. -/
def Split (s : String) (sep : Char) : List String :=
  (splitChars sep s.toList).map String.mk

/-- `strings.Contains(s, sub)`, as a decidable proposition. -/
def Contains (s sub : String) : Prop :=
  sub.toList <:+: s.toList

instance (s sub : String) : Decidable (Contains s sub) := by
  unfold Contains; infer_instance

end strings

namespace fmt

/-- The `%v` rendering of a `[]string`: the elements separated by blanks, in brackets. -/
def sliceV (xs : List String) : String :=
  "[" ++ " ".intercalate xs ++ "]"

end fmt

namespace unicode

/-- `unicode.IsSpace(r)`: the white space characters of Unicode, which are tab, line feed,
vertical tab, form feed, carriage return, the blank, U+0085, U+00A0, U+1680,
U+2000 to U+200A, U+2028, U+2029, U+202F, U+205F and U+3000. -/
def IsSpace (c : Char) : Bool :=
  decide ((9 ≤ c.toNat ∧ c.toNat ≤ 13) ∨ c.toNat = 0x20 ∨ c.toNat = 0x85 ∨ c.toNat = 0xA0 ∨
    c.toNat = 0x1680 ∨ (0x2000 ≤ c.toNat ∧ c.toNat ≤ 0x200A) ∨ c.toNat = 0x2028 ∨
    c.toNat = 0x2029 ∨ c.toNat = 0x202F ∨ c.toNat = 0x205F ∨ c.toNat = 0x3000)

end unicode

namespace strings

/-- The maximal runs of characters that are not white space, in order. -/
def fieldsChars : List Char → List (List Char)
  | [] => []
  | c :: cs =>
    if unicode.IsSpace c then fieldsChars cs
    else
      match cs with
      | [] => [[c]]
      | d :: _ =>
        if unicode.IsSpace d then [c] :: fieldsChars cs
        else
          match fieldsChars cs with
          | [] => [[c]]
          | field :: fields => (c :: field) :: fields

/-- `strings.Fields(s)`: `s` split around each run of white space; no field is empty. -/
def Fields (s : String) : List String :=
  (fieldsChars s.toList).map String.mk

end strings

/-! ## `demo/backend-service/main.go` -/

namespace backend

/-- `Config` of the backend service. -/
structure Config where
  Port : String
  KeycloakURL : String
  Realm : String
  JWKSUrl : String
  RequiredAud : String
  RequiredScope : String
  deriving DecidableEq, Repr

/-- `Claims`: the fields of the embedded `jwt.RegisteredClaims` the service reads
(`Issuer`, `Subject`, `Audience`, `ExpiresAt`, `IssuedAt`) and the custom fields.
`RealmAccess` is decoded but never read and is left out. -/
structure Claims where
  Issuer : String
  Subject : String
  Audience : List String
  ExpiresAt : Option Int
  IssuedAt : Option Int
  Scope : String
  PreferredUsername : String
  Email : String
  Name : String
  AZP : String
  deriving DecidableEq, Repr

/-- A public key as returned by `key.Raw`. -/
structure PublicKey where
  raw : String
  deriving DecidableEq, Repr

/-- An entry `token.Header[k]`, an `interface{}` value of a map. -/
inductive HeaderValue where
  | absent
  | str (s : String)
  | other (rendered : String)
  deriving DecidableEq, Repr

/-- What the key function and `validateToken` read of a `*jwt.Token`. -/
structure Token where
  /-- whether `token.Method.(*jwt.SigningMethodRSA)` succeeds -/
  MethodIsRSA : Bool
  /-- the `%v` rendering of `token.Header["alg"]` -/
  HeaderAlg : String
  /-- the entry `token.Header["kid"]` -/
  HeaderKid : HeaderValue
  /-- the value of `token.Claims.(*Claims)` when that assertion succeeds -/
  Claims : Option Claims
  Valid : Bool
  deriving DecidableEq, Repr

/-- A `jwk.Set`: key identifiers with what `key.Raw` yields for the key. -/
abbrev JwkSet := List (String × Except GoError PublicKey)

/-- `BackendService`. -/
structure BackendService where
  config : Config
  jwkSet : JwkSet

/-- The library function `jwt.ParseWithClaims(tokenString, &Claims{}, keyFunc)`, which is
outside the repository: from the token text and the key function, an error or a token. -/
abbrev Parser := String → (Token → Except GoError PublicKey) → Except GoError Token

/-- The key function `validateToken` hands to `jwt.ParseWithClaims` (lines 92-120). -/
def keyFunc (s : BackendService) (token : Token) : Except GoError PublicKey :=
  if !token.MethodIsRSA then
    .error ⟨"unexpected signing method: " ++ token.HeaderAlg⟩
  else
    match token.HeaderKid with
    | .absent => .error ⟨"missing kid in token header"⟩
    | .other _ => .error ⟨"kid is not a string"⟩
    | .str kid =>
      match s.jwkSet.lookup kid with
      | none => .error ⟨"key not found in JWKS"⟩
      | some (.error err) => .error ⟨"failed to get public key: " ++ err.msg⟩
      | some (.ok pubKey) => .ok pubKey

/-- `(*BackendService).validateToken`. -/
def validateToken (parse : Parser) (s : BackendService) (tokenString : String) :
    Except GoError Claims :=
  match parse tokenString (keyFunc s) with
  | .error err => .error ⟨"token parsing failed: " ++ err.msg⟩
  | .ok token =>
    match token.Claims with
    | none => .error ⟨"invalid token claims"⟩
    | some claims =>
      if !token.Valid then
        .error ⟨"invalid token claims"⟩
      else
        -- validate audience
        let found := claims.Audience.any (fun aud => aud == s.config.RequiredAud)
        if !found then
          .error ⟨"invalid audience: expected " ++ s.config.RequiredAud ++ ", got "
            ++ fmt.sliceV claims.Audience⟩
        else
          -- validate scope
          let scopes := strings.Split claims.Scope ' '
          let hasRequiredScope := scopes.any (fun scope => scope == s.config.RequiredScope)
          if !hasRequiredScope then
            .error ⟨"missing required scope: " ++ s.config.RequiredScope⟩
          else
            .ok claims

/-- An `*http.Request`, as far as the service reads it: the header (canonical names,
first value) and the values of its context. -/
structure Request where
  Header : List (String × String)
  Context : List (String × Claims)
  deriving DecidableEq, Repr

/-- `r.Header.Get(key)`: the value, or the empty string when the header is absent. -/
def Request.HeaderGet (r : Request) (key : String) : String :=
  match r.Header.lookup key with
  | some v => v
  | none => ""

/-- `r.WithContext(context.WithValue(r.Context(), key, claims))`. -/
def Request.WithValue (r : Request) (key : String) (claims : Claims) : Request :=
  { r with Context := (key, claims) :: r.Context }

/-- `r.Context().Value(key)`: the value bound last. -/
def Request.Value (r : Request) (key : String) : Option Claims :=
  r.Context.lookup key

/-- A response body: the text written by `http.Error`, or the JSON document that
`json.NewEncoder(w).Encode` writes for a map with string values, given by its members
in the order of the encoder (keys sorted). -/
inductive Body where
  | text (s : String)
  | json (members : List (String × String))
  deriving DecidableEq, Repr

/-- Drops leading JSON white space. -/
def skipBlank : List Char → List Char
  | [] => []
  | c :: cs => if c = ' ' ∨ c = '\n' ∨ c = '\t' ∨ c = '\r' then skipBlank cs else c :: cs

/-- Reads a JSON string after its opening quote, up to the closing quote: the characters
of the string and the rest of the input.  Escape sequences are not accepted. -/
def readString : List Char → Option (List Char × List Char)
  | [] => none
  | c :: cs =>
    if c = '"' then some ([], cs)
    else if c = '\\' then none
    else
      match readString cs with
      | some (str, rest) => some (c :: str, rest)
      | none => none

/-- Reads `"key":"value"` pairs separated by commas up to the closing brace, after which
only white space may follow.  `fuel` bounds the number of pairs. -/
def readMembers : Nat → List Char → Option (List (String × String))
  | 0, _ => none
  | fuel + 1, input =>
    match skipBlank input with
    | [] => none
    | q :: afterQuote =>
      if q ≠ '"' then none
      else
        match readString afterQuote with
        | none => none
        | some (key, afterKey) =>
          match skipBlank afterKey with
          | [] => none
          | colon :: afterColon =>
            if colon ≠ ':' then none
            else
              match skipBlank afterColon with
              | [] => none
              | q2 :: afterQuote2 =>
                if q2 ≠ '"' then none
                else
                  match readString afterQuote2 with
                  | none => none
                  | some (val, afterVal) =>
                    match skipBlank afterVal with
                    | [] => none
                    | d :: afterDelim =>
                      if d = ',' then
                        match readMembers fuel afterDelim with
                        | some members => some ((String.mk key, String.mk val) :: members)
                        | none => none
                      else if d = '\x7d' ∧ skipBlank afterDelim = [] then
                        some [(String.mk key, String.mk val)]
                      else none

/-- The members of a text that is a JSON object whose values are strings without escape
sequences; `none` for any other text. -/
def readObject (s : String) : Option (List (String × String)) :=
  match skipBlank s.toList with
  | [] => none
  | b :: rest =>
    if b ≠ '\x7b' then none
    else
      match skipBlank rest with
      | [] => none
      | e :: after =>
        if e = '\x7d' ∧ skipBlank after = [] then some []
        else readMembers s.length rest

/-- The members of a body read as a JSON object. -/
def Body.members : Body → Option (List (String × String))
  | .text s => readObject s
  | .json members => some members

/-- The value of the field `key` of a body read as a JSON object. -/
def Body.field (b : Body) (key : String) : Option String :=
  match b.members with
  | some members => members.lookup key
  | none => none

/-- What a handler wrote to the `http.ResponseWriter`. -/
structure Response where
  Status : Nat
  ContentType : String
  Body : Body
  deriving DecidableEq, Repr

/-- `http.StatusUnauthorized`. -/
def StatusUnauthorized : Nat := 401

/-- `http.Error(w, msg, code)`: a plain-text response with the message and a newline. -/
def httpError (msg : String) (code : Nat) : Response :=
  { Status := code, ContentType := "text/plain; charset=utf-8", Body := .text (msg ++ "\n") }

/-- What the handler returned by `requireAuth` does besides writing a response. -/
inductive AuthEvent where
  | validateToken (token : String)
  | next (r : Request)
  deriving DecidableEq, Repr

/-- One run of the handler returned by `requireAuth`: its calls in order, and the
response it wrote itself (`none` when it handed the request to `next`). -/
structure AuthRun where
  events : List AuthEvent
  written : Option Response
  deriving DecidableEq, Repr

/-- The handler returned by `(*BackendService).requireAuth(next)`, applied to `r`.
Log output is not part of the model. -/
def requireAuth (parse : Parser) (s : BackendService) (r : Request) : AuthRun :=
  let authHeader := r.HeaderGet "Authorization"
  if authHeader = "" ∨ strings.HasPrefix authHeader "Bearer " = false then
    { events := [],
      written := some (httpError
        "\x7b\"error\":\"Missing or invalid Authorization header\",\"demo_note\":\"🚫 No token provided\"\x7d"
        StatusUnauthorized) }
  else
    let token := strings.TrimPrefix authHeader "Bearer "
    match validateToken parse s token with
    | .error err =>
      { events := [.validateToken token],
        written := some
          { Status := StatusUnauthorized,
            ContentType := "application/json",
            Body := .json
              [("demo_note", "🚫 Token validation failed - production-ready validation!"),
               ("details", err.msg),
               ("error", "Token validation failed")] } }
    | .ok claims =>
      { events := [.validateToken token, .next (r.WithValue "claims" claims)],
        written := none }

/-- Whether the run ended in a rejection: the handler answered itself and `next`
was not reached. -/
def AuthRun.rejected (run : AuthRun) : Prop :=
  run.written ≠ none

instance (run : AuthRun) : Decidable run.rejected := by
  unfold AuthRun.rejected; infer_instance

/-- The request handed to `next`, if the event is a call of `next`. -/
def AuthEvent.next? : AuthEvent → Option Request
  | .validateToken _ => none
  | .next r => some r

/-- The body `requireAuth` sends when the Authorization header is missing or malformed. -/
def missingHeaderText : String :=
  "\x7b\"error\":\"Missing or invalid Authorization header\",\"demo_note\":\"🚫 No token provided\"\x7d"

/-- A service configured as in `main` with the default environment. -/
def sampleService : BackendService :=
  { config :=
      { Port := "8090", KeycloakURL := "http://localhost:8080", Realm := "toolhive",
        JWKSUrl := "http://localhost:8080/realms/toolhive/protocol/openid-connect/certs",
        RequiredAud := "backend", RequiredScope := "backend-access" },
    jwkSet := [("key-1", .ok ⟨"rsa-public-key"⟩)] }

/-- Claims with the given audience and scope. -/
def sampleClaims (aud : List String) (scope : String) : Claims :=
  { Issuer := "http://localhost:8080/realms/toolhive", Subject := "user-1", Audience := aud,
    ExpiresAt := some 2000000000, IssuedAt := some 1700000000, Scope := scope,
    PreferredUsername := "alice", Email := "alice@example.com", Name := "Alice", AZP := "mcp" }

/-- A parser that accepts every token text and yields a valid token with the given claims. -/
def sampleParser (claims : Claims) : Parser :=
  fun _ _ =>
    .ok { MethodIsRSA := true, HeaderAlg := "RS256", HeaderKid := .str "key-1",
          Claims := some claims, Valid := true }

/-- A request whose only header is `Authorization`. -/
def sampleRequest (authorization : String) : Request :=
  { Header := [("Authorization", authorization)], Context := [] }

/-- How a run of one of the handlers registered in `main` ends.  The content of the
responses (which holds the current time) is not part of the model. -/
inductive HandlerResult where
  /-- the type assertion `r.Context().Value("claims").(*Claims)` panics -/
  | lookupPanic
  /-- `claims.IssuedAt.Unix()` or `claims.ExpiresAt.Unix()` is called on a nil pointer -/
  | nilDereference
  /-- `healthHandler` wrote its response -/
  | wroteHealth
  /-- `dataHandler` wrote its response from the claims -/
  | wroteData (claims : Claims)
  /-- `debugHandler` wrote its response from the claims -/
  | wroteDebug (claims : Claims)
  deriving DecidableEq, Repr

/-- `(*BackendService).healthHandler`. -/
def healthHandler (_r : Request) : HandlerResult :=
  .wroteHealth

/-- `(*BackendService).dataHandler`. -/
def dataHandler (r : Request) : HandlerResult :=
  match r.Value "claims" with
  | none => .lookupPanic
  | some claims => .wroteData claims

/-- `(*BackendService).debugHandler`. -/
def debugHandler (r : Request) : HandlerResult :=
  match r.Value "claims" with
  | none => .lookupPanic
  | some claims =>
    match claims.IssuedAt, claims.ExpiresAt with
    | some _, some _ => .wroteDebug claims
    | _, _ => .nilDereference

/-- The handler functions of the service. -/
inductive Endpoint where
  | healthHandler
  | dataHandler
  | debugHandler
  deriving DecidableEq, Repr

/-- The run of a handler function on a request. -/
def Endpoint.run : Endpoint → Request → HandlerResult
  | .healthHandler, r => backend.healthHandler r
  | .dataHandler, r => backend.dataHandler r
  | .debugHandler, r => backend.debugHandler r

/-- The routes `main` registers with `http.HandleFunc` (lines 59-61): the pattern, whether
the handler is wrapped in `requireAuth`, and the handler. -/
def mainRoutes : List (String × Bool × Endpoint) :=
  [("/health", false, .healthHandler),
   ("/api/data", true, .dataHandler),
   ("/api/debug", true, .debugHandler)]

/-- What serving one request does: the run of `requireAuth` when the route is wrapped, and
the runs of handler functions, each with the request it received and how it ended. -/
structure ServeRun where
  auth : Option AuthRun
  handled : List (Endpoint × Request × HandlerResult)
  deriving DecidableEq, Repr

/-- The service of `main` on a request for `path`: the route with that pattern is looked
up; a wrapped handler runs on the requests `requireAuth` hands to `next`; a path without a
route reaches no handler of the service. -/
def serve (parse : Parser) (s : BackendService) (path : String) (r : Request) : ServeRun :=
  match mainRoutes.lookup path with
  | none => { auth := none, handled := [] }
  | some (false, endpoint) => { auth := none, handled := [(endpoint, r, endpoint.run r)] }
  | some (true, endpoint) =>
    let run := requireAuth parse s r
    { auth := some run,
      handled := (run.events.filterMap AuthEvent.next?).map
        (fun r' => (endpoint, r', endpoint.run r')) }

end backend

/-! ## `test/e2e/helpers.go` -/

namespace e2e

/-- `TestConfig`.  `TestTimeout` is a `time.Duration`, in nanoseconds. -/
structure TestConfig where
  THVBinary : String
  TestTimeout : Int
  CleanupAfter : Bool
  deriving DecidableEq, Repr

/-- `THVCommand`. -/
structure THVCommand where
  config : TestConfig
  args : List String
  env : List String
  dir : String
  deriving DecidableEq, Repr

/-- What `cmd.Run()` leaves behind: standard output, standard error, and the error. -/
structure CmdResult where
  stdout : String
  stderr : String
  err : Option GoError
  deriving DecidableEq, Repr

/-- The machine the helpers run on, with states `σ`: the environment `os.Environ()`, and
the execution of the `thv` binary for a command under a timeout (`exec.CommandContext`
followed by `cmd.Run()`), which yields the command's result and the next state. -/
structure Host (σ : Type) where
  environ : List String
  exec : σ → THVCommand → Int → CmdResult × σ

variable {σ : Type}

/-- `NewTHVCommand(config, args...)`. -/
def NewTHVCommand (host : Host σ) (config : TestConfig) (args : List String) : THVCommand :=
  { config := config, args := args, env := host.environ, dir := "" }

/-- `(*THVCommand).RunWithTimeout(timeout)`. -/
def THVCommand.RunWithTimeout (host : Host σ) (c : THVCommand) (timeout : Int) (w : σ) :
    CmdResult × σ :=
  host.exec w c timeout

/-- `(*THVCommand).Run()`. -/
def THVCommand.Run (host : Host σ) (c : THVCommand) (w : σ) : CmdResult × σ :=
  c.RunWithTimeout host c.config.TestTimeout w

/-- `StopAndRemoveMCPServer(config, serverName)`: the returned error and the state after
the two commands. -/
def StopAndRemoveMCPServer (host : Host σ) (config : TestConfig) (serverName : String)
    (w : σ) : Option GoError × σ :=
  -- try to stop the server first; all three results are discarded
  let stop := (NewTHVCommand host config ["stop", serverName]).Run host w
  -- then remove it
  let rm := (NewTHVCommand host config ["rm", serverName]).Run host stop.2
  match rm.1.err with
  | some err =>
    if strings.Contains rm.1.stderr "not found" then (none, rm.2)
    else (some err, rm.2)
  | none => (none, rm.2)

/-- The result of the `stop` command that `StopAndRemoveMCPServer` runs first. -/
def stopResult (host : Host σ) (config : TestConfig) (serverName : String) (w : σ) :
    CmdResult :=
  ((NewTHVCommand host config ["stop", serverName]).Run host w).1

/-- The result of the `rm` command that `StopAndRemoveMCPServer` runs after `stop`. -/
def rmResult (host : Host σ) (config : TestConfig) (serverName : String) (w : σ) : CmdResult :=
  ((NewTHVCommand host config ["rm", serverName]).Run host
    ((NewTHVCommand host config ["stop", serverName]).Run host w).2).1

/-- The inner loop of `GetMCPServerURL` (lines 178-183): the first part that starts with
"http://" or "https://". -/
def scanParts : List String → Option String
  | [] => none
  | part :: parts =>
    if strings.HasPrefix part "http://" || strings.HasPrefix part "https://" then some part
    else scanParts parts

/-- The outer loop of `GetMCPServerURL` (lines 172-185). -/
def scanLines (serverName : String) : List String → Option String
  | [] => none
  | line :: lines =>
    if strings.Contains line serverName then
      -- parse the URL from the list output
      match scanParts (strings.Fields line) with
      | some part => some part
      | none => scanLines serverName lines
    else scanLines serverName lines

/-- `GetMCPServerURL(config, serverName)`: the Go pair it returns, and the state after the
`list` command.  Output to `GinkgoWriter` is not part of the model. -/
def GetMCPServerURL (host : Host σ) (config : TestConfig) (serverName : String) (w : σ) :
    (String × Option GoError) × σ :=
  let list := (NewTHVCommand host config ["list"]).Run host w
  match list.1.err with
  | some err => (("", some ⟨"failed to list servers: " ++ err.msg⟩), list.2)
  | none =>
    let lines := strings.Split list.1.stdout '\n'
    match scanLines serverName lines with
    | some part => ((part, none), list.2)
    | none =>
      (("", some ⟨"could not find URL for server " ++ serverName ++ " in output: "
        ++ list.1.stdout⟩), list.2)

/-- The result of the `list` command that `GetMCPServerURL` runs. -/
def listResult (host : Host σ) (config : TestConfig) (w : σ) : CmdResult :=
  ((NewTHVCommand host config ["list"]).Run host w).1

/-- Whether a field begins with "http://" or "https://". -/
def isURLField (field : String) : Bool :=
  strings.HasPrefix field "http://" || strings.HasPrefix field "https://"

/-- The URL of the specification for a `list` output and a server name: of the lines that
contain the server name, top to bottom, and of their white-space-separated fields, left to
right, the first field that begins with "http://" or "https://". -/
def firstURLField (stdout serverName : String) : Option String :=
  (((strings.Split stdout '\n').filter
      (fun line => decide (strings.Contains line serverName))).flatMap strings.Fields).find?
    isURLField

/-- A host whose `list` command succeeds with the given output. -/
def listingHost (stdout : String) : Host Nat :=
  { environ := ["PATH=/usr/bin"],
    exec := fun w _ _ => ({ stdout := stdout, stderr := "", err := none }, w + 1) }

/-- A `list` output with a header line and two servers. -/
def sampleListing : String :=
  "NAME  URL  PORT\nfetch  http://h:1/sse  1\nosv up  ftp://x  https://h:2  http://h:3\n"

/-- What the collaborators of `cleanupSpecificGroup` answer.  The packages `pkg/groups` and
`pkg/workloads` are not among the sources; the function calls each collaborator at most
once on every path, so one answer per collaborator describes a run.  A `(value, error)`
result is a pair. -/
structure Outcomes where
  /-- the error of `groups.NewManager()` -/
  groupsNewManager : Option GoError
  /-- the result of `groupManager.Exists(ctx, groupName)` -/
  groupExists : Bool × Option GoError
  /-- the result of `groupManager.ListWorkloadsInGroup(ctx, groupName)` -/
  listWorkloadsInGroup : List String × Option GoError
  /-- the error of `workloads.NewManager(ctx)` -/
  workloadsNewManager : Option GoError
  /-- the error of `workloadManager.DeleteWorkloads(ctx, groupWorkloads)` -/
  deleteWorkloads : Option GoError
  /-- the result of `group.Wait()` -/
  wait : Option GoError
  /-- the result of `groupManager.Delete(ctx, groupName)` -/
  delete : Option GoError
  deriving DecidableEq, Repr

/-- A call `cleanupSpecificGroup` makes, with its arguments (the context apart). -/
inductive Call where
  | groupsNewManager
  | Exists (groupName : String)
  | ListWorkloadsInGroup (groupName : String)
  | workloadsNewManager
  | DeleteWorkloads (names : List String)
  | Wait
  | Delete (groupName : String)
  deriving DecidableEq, Repr

/-- `cleanupSpecificGroup(groupName)`: the calls it makes, in order.  The function returns
no value and writes no log, so the calls are all it does. -/
def cleanupSpecificGroup (o : Outcomes) (groupName : String) : List Call :=
  match o.groupsNewManager with
  | some _ => [.groupsNewManager]
  | none =>
    -- check if the group exists before trying to delete it
    if o.groupExists.2 ≠ none ∨ o.groupExists.1 = false then
      [.groupsNewManager, .Exists groupName]
    else
      -- get all workloads in the group
      let groupWorkloads := o.listWorkloadsInGroup.1
      match o.listWorkloadsInGroup.2 with
      | some _ =>
        [.groupsNewManager, .Exists groupName, .ListWorkloadsInGroup groupName,
         .Delete groupName]
      | none =>
        if groupWorkloads.length > 0 then
          match o.workloadsNewManager with
          | some _ =>
            [.groupsNewManager, .Exists groupName, .ListWorkloadsInGroup groupName,
             .workloadsNewManager, .Delete groupName]
          | none =>
            match o.deleteWorkloads with
            | some _ =>
              [.groupsNewManager, .Exists groupName, .ListWorkloadsInGroup groupName,
               .workloadsNewManager, .DeleteWorkloads groupWorkloads, .Delete groupName]
            | none =>
              match o.wait with
              | some _ =>
                [.groupsNewManager, .Exists groupName, .ListWorkloadsInGroup groupName,
                 .workloadsNewManager, .DeleteWorkloads groupWorkloads, .Wait,
                 .Delete groupName]
              | none =>
                [.groupsNewManager, .Exists groupName, .ListWorkloadsInGroup groupName,
                 .workloadsNewManager, .DeleteWorkloads groupWorkloads, .Wait,
                 .Delete groupName]
        else
          [.groupsNewManager, .Exists groupName, .ListWorkloadsInGroup groupName,
           .Delete groupName]

/-- Whether a call obtains a manager (`groups.NewManager`, `workloads.NewManager`) rather
than being a method call on a manager or on the deletion handle. -/
def Call.obtainsManager : Call → Bool
  | .groupsNewManager => true
  | .workloadsNewManager => true
  | _ => false

/-- The method calls of a run, on the group manager, the workload manager and the
deletion handle, in order. -/
def methodCalls (calls : List Call) : List Call :=
  calls.filter (fun c => !c.obtainsManager)

/-- How many times a run calls `groupManager.Delete` for the group. -/
def deleteCount (calls : List Call) (groupName : String) : Nat :=
  calls.count (.Delete groupName)

/-- Outcomes in which every collaborator succeeds and the group has the given members. -/
def allSucceed (members : List String) : Outcomes :=
  { groupsNewManager := none, groupExists := (true, none),
    listWorkloadsInGroup := (members, none), workloadsNewManager := none,
    deleteWorkloads := none, wait := none, delete := none }

/-- A host on which `stop` ends with the given error, and `rm` fails with the given
standard error. -/
def sampleHost (stopErr : Option GoError) (rmStderr : String) : Host Nat :=
  { environ := ["PATH=/usr/bin"],
    exec := fun w c _ =>
      if c.args.head? = some "stop" then
        ({ stdout := "", stderr := "", err := stopErr }, w + 1)
      else
        ({ stdout := "", stderr := rmStderr, err := some ⟨"exit status 1"⟩ }, w + 1) }

/-- A test configuration as `NewTestConfig` builds it when `THV_BINARY` is unset. -/
def sampleTestConfig : TestConfig :=
  { THVBinary := "thv", TestTimeout := 600000000000, CleanupAfter := true }

end e2e

/-! ## Package `workloads`: bulk deletion -/

namespace workloads

/-- Modelled from the spec: the combined error of a bulk deletion (section 7,
AggregateError), which "wraps one error per failed member; callers must be able to
enumerate individual failures".  Each entry is a failed member with its error. -/
structure AggregateError where
  failures : List (String × GoError)
  deriving DecidableEq, Repr

/-- Modelled from the spec: the handle that `DeleteWorkloads` returns (section 4.5).  The
package `pkg/workloads` is not among the sources.  The handle knows which deletions were
launched and, once all have finished, which of them failed. -/
structure DeletionGroup where
  attempted : List String
  failures : List (String × GoError)
  deriving DecidableEq, Repr

/-- Modelled from the spec: the fan-out of `DeleteWorkloads(ctx, names)` (sections 4.5 and
9): "launch one concurrent task per item, collect results through a synchronized
collector", with no first-error-cancels-rest.  `deleteOne` is the outcome of deleting one
workload, `none` for success.  The tasks are independent, so the collector's content is
given in the order of `names`; the order in which tasks finish is unspecified. -/
def launchAll (deleteOne : String → Option GoError) :
    List String → List String × List (String × GoError)
  | [] => ([], [])
  | name :: rest =>
    let others := launchAll deleteOne rest
    match deleteOne name with
    | some err => (name :: others.1, (name, err) :: others.2)
    | none => (name :: others.1, others.2)

/-- Modelled from the spec: `DeleteWorkloads(ctx, names)` (section 4.5), which "initiates
concurrent deletion of multiple workloads, returning a handle". -/
def DeleteWorkloads (deleteOne : String → Option GoError) (names : List String) :
    DeletionGroup :=
  { attempted := (launchAll deleteOne names).1, failures := (launchAll deleteOne names).2 }

/-- Modelled from the spec: `Wait()` (sections 4.5 and 5), which "blocks until all
deletions complete and aggregates every per-workload failure into one combined error (nil
only if all succeeded)": join-and-aggregate, not first-error-wins. -/
def DeletionGroup.Wait (g : DeletionGroup) : Option AggregateError :=
  match g.failures with
  | [] => none
  | failure :: failures => some { failures := failure :: failures }

/-- An outcome of single deletions in which exactly the workloads `w2` and `w4` fail. -/
def sampleDeleteOne (name : String) : Option GoError :=
  if name = "w2" then some ⟨"deployer: stop w2: timeout"⟩
  else if name = "w4" then some ⟨"deployer: stop w4: no such container"⟩
  else none

end workloads

/-! ## `demo/mcp-server/main.go` -/

namespace mcpserver

/-- An `http.Header` with canonical names and one value per name. -/
abbrev Header := List (String × String)

/-- `h.Get(key)`: the value, or the empty string when the header is absent. -/
def Header.Get (h : Header) (key : String) : String :=
  match h.lookup key with
  | some v => v
  | none => ""

/-- `h.Set(key, value)`: the entry for `key` is replaced by the one value. -/
def Header.Set (h : Header) (key value : String) : Header :=
  (key, value) :: h.filter (fun entry => entry.1 != key)

/-- `mcp.CallToolRequest`, as far as the handler reads it. -/
structure CallToolRequest where
  Header : Header
  deriving DecidableEq, Repr

/-- `mcp.CallToolResult` with one text content: `mcp.NewToolResultText(text)` has
`IsError` false, `mcp.NewToolResultError(text)` has it true. -/
structure CallToolResult where
  IsError : Bool
  Text : String
  deriving DecidableEq, Repr

/-- `mcp.NewToolResultText(text)`. -/
def NewToolResultText (text : String) : CallToolResult :=
  { IsError := false, Text := text }

/-- `mcp.NewToolResultError(text)`. -/
def NewToolResultError (text : String) : CallToolResult :=
  { IsError := true, Text := text }

/-- An outgoing `*http.Request`. -/
structure HTTPRequest where
  Method : String
  URL : String
  Header : Header
  deriving DecidableEq, Repr

/-- An `*http.Response`: the status code, and what `io.ReadAll(resp.Body)` yields. -/
structure HTTPResponse where
  StatusCode : Int
  Body : Except GoError String

/-- The standard library and the network, as the handler uses them. -/
structure Env where
  /-- the error of `http.NewRequestWithContext(ctx, method, url, nil)`, `none` when the
  request is created -/
  newRequestError : String → String → Option GoError
  /-- the result of `client.Do(httpReq)` -/
  clientDo : HTTPRequest → Except GoError HTTPResponse
  /-- the text `json.MarshalIndent(jsonData, "", "  ")` yields after
  `json.Unmarshal(body, &jsonData)` when the body is valid JSON, `none` when it is not -/
  prettyJSON : String → Option String

/-- `http.NewRequestWithContext(ctx, method, url, nil)`: a request without headers. -/
def NewRequestWithContext (env : Env) (method url : String) : Except GoError HTTPRequest :=
  match env.newRequestError method url with
  | some err => .error err
  | none => .ok { Method := method, URL := url, Header := [] }

/-- The `%d` rendering of an `int`. -/
def intD (n : Int) : String :=
  toString n

/-- One run of `handleGetBackendData`: the Go pair it returns and the requests it handed
to `client.Do`, in order.  Log output is not part of the model. -/
structure ToolRun where
  result : Option CallToolResult
  err : Option GoError
  sent : List HTTPRequest
  deriving DecidableEq, Repr

/-- `handleGetBackendData(ctx, req, backendURL)`. -/
def handleGetBackendData (env : Env) (req : CallToolRequest) (backendURL : String) : ToolRun :=
  -- extract Authorization header from the request
  let authHeader := req.Header.Get "Authorization"
  if authHeader = "" then
    { result := some (NewToolResultText "⚠️  No Authorization header found in request"),
      err := none, sent := [] }
  else
    -- call backend service
    let url := backendURL ++ "/api/data"
    match NewRequestWithContext env "GET" url with
    | .error err =>
      { result := some (NewToolResultError ("❌ Failed to create request: " ++ err.msg)),
        err := none, sent := [] }
    | .ok httpReq0 =>
      -- forward the Authorization header to the backend
      let httpReq := { httpReq0 with Header := httpReq0.Header.Set "Authorization" authHeader }
      match env.clientDo httpReq with
      | .error err =>
        { result := some (NewToolResultError ("❌ Backend request failed: " ++ err.msg)),
          err := none, sent := [httpReq] }
      | .ok resp =>
        match resp.Body with
        | .error err =>
          { result := some (NewToolResultError ("❌ Failed to read response: " ++ err.msg)),
            err := none, sent := [httpReq] }
        | .ok body =>
          -- pretty print JSON response
          let responseText :=
            match env.prettyJSON body with
            | some prettyJSON => prettyJSON
            | none => body
          -- check response status
          if resp.StatusCode = 200 then
            { result := some (NewToolResultText
                ("✅ Backend Data Retrieved Successfully!\n\nHTTP " ++ intD resp.StatusCode ++ "\n\n" ++ responseText)),
              err := none, sent := [httpReq] }
          else
            { result := some (NewToolResultError
                ("❌ Backend Call Failed\n\nHTTP " ++ intD resp.StatusCode ++ "\n\n" ++ responseText)),
              err := none, sent := [httpReq] }

/-- The text of a response as the handler shows it: the body re-indented when it is valid
JSON, the body itself otherwise. -/
def responseText (env : Env) (body : String) : String :=
  match env.prettyJSON body with
  | some prettyJSON => prettyJSON
  | none => body

/-- The backend request of the specification for a tool call: a GET to
`backendURL + "/api/data"` whose only header is the Authorization header of the call. -/
def forwardedRequest (req : CallToolRequest) (backendURL : String) : HTTPRequest :=
  { Method := "GET", URL := backendURL ++ "/api/data",
    Header := [("Authorization", req.Header.Get "Authorization")] }

/-- A stand-in for the standard library and a backend, for backend URLs that `net/url`
accepts: every request is created; the backend answers every request with the given status
and body; the body `\x7b"a":1\x7d` is valid JSON and is re-indented as `encoding/json` does
with an indent of two blanks, any other body counts as not JSON. -/
def sampleEnv (status : Int) (body : String) : Env :=
  { newRequestError := fun _ _ => none,
    clientDo := fun _ => .ok { StatusCode := status, Body := .ok body },
    prettyJSON := fun b =>
      if b = "\x7b\"a\":1\x7d" then some "\x7b\n  \"a\": 1\n\x7d" else none }

/-- The error of `http.NewRequestWithContext` for the URL `http://localhost:8090`, a line
feed, `/api/data`: the `*url.Error` of `url.Parse`, whose text is the operation, the URL
in the `%q` rendering, and the cause. -/
def badURLError : GoError :=
  ⟨"parse \"http://localhost:8090\\n/api/data\": net/url: invalid control character in URL"⟩

/-- An environment in which the creation of the request for the one URL `badURL` fails with
`err` and every other request is created; the backend answers 200 with the body `ok`. -/
def refusingEnv (badURL : String) (err : GoError) : Env :=
  { newRequestError := fun _ url => if url = badURL then some err else none,
    clientDo := fun _ => .ok { StatusCode := 200, Body := .ok "ok" },
    prettyJSON := fun _ => none }

/-- A tool call whose only header is `Authorization`. -/
def sampleCall (authorization : String) : CallToolRequest :=
  { Header := [("Authorization", authorization)] }

end mcpserver

end Toolhive


/-! # Properties -/

namespace Toolhive

namespace transport

open types

variable {δ η μ ρ : Type}

/-! ## The switch of `Factory.Create` -/

theorem stdio_ne_sse : TransportTypeStdio ≠ TransportTypeSSE := by decide

theorem stdio_ne_streamable : TransportTypeStdio ≠ TransportTypeStreamableHTTP := by decide

theorem sse_ne_streamable : TransportTypeSSE ≠ TransportTypeStreamableHTTP := by decide

theorem create_of_supported (namedSupport : ConcreteType → Bool) (config : Config δ η μ ρ)
    (h : supportedType config.Type_) :
    Factory.Create namedSupport config =
      if namedSupport (builtFor config).concreteType = true ∧
          config.NamedMiddlewares.length > 0 then
        (some ((builtFor config).SetNamedMiddlewares config.NamedMiddlewares), none)
      else (some (builtFor config), none) := by
  rcases h with h | h | h
  · simp only [Factory.Create, builtFor, h, if_true]
  · simp only [Factory.Create, builtFor, h, if_true, if_neg stdio_ne_sse.symm]
  · simp only [Factory.Create, builtFor, h, if_true, if_neg stdio_ne_streamable.symm,
      if_neg sse_ne_streamable.symm]

theorem create_of_unsupported (namedSupport : ConcreteType → Bool) (config : Config δ η μ ρ)
    (h : ¬ supportedType config.Type_) :
    Factory.Create namedSupport config = (none, some errors.ErrUnsupportedTransport) := by
  unfold supportedType at h
  push_neg at h
  obtain ⟨h1, h2, h3⟩ := h
  simp only [Factory.Create, if_neg h1, if_neg h2, if_neg h3, ite_self]

theorem builtFor_calls_named (config : Config δ η μ ρ) : namedCalls (builtFor config) = [] := by
  unfold builtFor namedCalls
  split <;> rfl

theorem builtFor_middlewares (config : Config δ η μ ρ) :
    (builtFor config).built.middlewares = config.Middlewares := by
  unfold builtFor
  split <;> rfl

theorem namedCalls_set (t : Transport δ η μ ρ) (named : List (String × μ)) :
    namedCalls (t.SetNamedMiddlewares named) = namedCalls t ++ [named] := by
  simp [namedCalls, Transport.SetNamedMiddlewares, List.filterMap_append,
    MethodCall.namedMiddlewares?]

theorem create_ok_of_supported (namedSupport : ConcreteType → Bool) (config : Config δ η μ ρ)
    (h : supportedType config.Type_) :
    ∃ t, Factory.Create namedSupport config = (some t, none) := by
  rw [create_of_supported namedSupport config h]
  split
  · exact ⟨_, rfl⟩
  · exact ⟨_, rfl⟩

theorem mem_calls_builtFor (config : Config δ η μ ρ) (named : List (String × μ)) :
    MethodCall.SetNamedMiddlewares named ∉ (builtFor config).calls := by
  unfold builtFor
  split <;> simp [NewStdioTransport, NewHTTPTransport, Transport.SetProxyMode]

open Classical in
theorem create_named_calls (namedSupport : ConcreteType → Bool) (config : Config δ η μ ρ)
    (h : supportedType config.Type_) :
    ∃ t, Factory.Create namedSupport config = (some t, none) ∧
      namedCalls t =
        (if namedSupport t.concreteType = true ∧ config.NamedMiddlewares ≠ [] then
          [config.NamedMiddlewares] else []) ∧
      (∀ named, MethodCall.SetNamedMiddlewares named ∈ t.calls ↔
        (namedSupport t.concreteType = true ∧ config.NamedMiddlewares ≠ []) ∧
          named = config.NamedMiddlewares) := by
  have hlen : config.NamedMiddlewares.length > 0 ↔ config.NamedMiddlewares ≠ [] := by
    rw [gt_iff_lt, List.length_pos]
  rw [create_of_supported namedSupport config h]
  by_cases hc : namedSupport (builtFor config).concreteType = true ∧
      config.NamedMiddlewares.length > 0
  · have hc' : namedSupport (builtFor config).concreteType = true ∧
        config.NamedMiddlewares ≠ [] := ⟨hc.1, hlen.1 hc.2⟩
    rw [if_pos hc]
    refine ⟨_, rfl, ?_, ?_⟩
    · rw [namedCalls_set, builtFor_calls_named]
      have : ((builtFor config).SetNamedMiddlewares config.NamedMiddlewares).concreteType =
          (builtFor config).concreteType := rfl
      rw [this, if_pos hc']
      rfl
    · intro named
      have hnot := mem_calls_builtFor config named
      constructor
      · intro hm
        simp only [Transport.SetNamedMiddlewares, List.mem_append, List.mem_singleton] at hm
        rcases hm with hm | hm
        · exact absurd hm hnot
        · exact ⟨hc', MethodCall.SetNamedMiddlewares.inj hm⟩
      · rintro ⟨-, rfl⟩
        simp [Transport.SetNamedMiddlewares]
  · have hc' : ¬ (namedSupport (builtFor config).concreteType = true ∧
        config.NamedMiddlewares ≠ []) := fun hx => hc ⟨hx.1, hlen.2 hx.2⟩
    rw [if_neg hc]
    refine ⟨_, rfl, ?_, ?_⟩
    · rw [builtFor_calls_named, if_neg hc']
    · intro named
      constructor
      · intro hm
        exact absurd hm (mem_calls_builtFor config named)
      · rintro ⟨hx, -⟩
        exact absurd hx hc'

theorem create_built (namedSupport : ConcreteType → Bool) (config : Config δ η μ ρ)
    (h : supportedType config.Type_) :
    ∃ t, Factory.Create namedSupport config = (some t, none) ∧
      t.built = (builtFor config).built ∧
      (t.calls = (builtFor config).calls ∨
        t.calls = (builtFor config).calls ++
          [MethodCall.SetNamedMiddlewares config.NamedMiddlewares]) := by
  rw [create_of_supported namedSupport config h]
  split
  · exact ⟨_, rfl, rfl, Or.inr rfl⟩
  · exact ⟨_, rfl, rfl, Or.inl rfl⟩

/-! ## Claims about `Factory.Create` -/

/-- C1: for every config whose Type is stdio, sse or streamable-http, whatever its other
fields and whichever concrete types implement the named-middleware capability,
`Factory.Create` returns a non-nil Transport together with a nil error. -/
theorem create_supported_returns_transport (namedSupport : ConcreteType → Bool)
    (config : Config δ η μ ρ)
    (h : config.Type_ = TransportTypeStdio ∨ config.Type_ = TransportTypeSSE ∨
      config.Type_ = TransportTypeStreamableHTTP) :
    ∃ t, Factory.Create namedSupport config = (some t, none) :=
  create_ok_of_supported namedSupport config h

/-- Witness for C1: the three supported kinds at a concrete config. -/
theorem create_supported_returns_transport_witness :
    (∃ t, Factory.Create (fun _ => true) (sampleConfig "stdio" [("auth", 4)]) = (some t, none)) ∧
    (∃ t, Factory.Create (fun _ => false) (sampleConfig "sse" []) = (some t, none)) ∧
    (∃ t, Factory.Create (fun _ => true) (sampleConfig "streamable-http" []) = (some t, none)) :=
  ⟨create_supported_returns_transport _ _ (Or.inl rfl),
   create_supported_returns_transport _ _ (Or.inr (Or.inl rfl)),
   create_supported_returns_transport _ _ (Or.inr (Or.inr rfl))⟩

/-- C2: `Factory.Create` fails if and only if config.Type is not one of stdio, sse,
streamable-http; in that case (in particular for Type inspector) it returns a nil
Transport and exactly `ErrUnsupportedTransport`; and whatever error it returns, for any
input, is `ErrUnsupportedTransport`. -/
theorem create_fails_iff_unsupported (namedSupport : ConcreteType → Bool)
    (config : Config δ η μ ρ) :
    ((Factory.Create namedSupport config).2 ≠ none ↔
      ¬ (config.Type_ = TransportTypeStdio ∨ config.Type_ = TransportTypeSSE ∨
        config.Type_ = TransportTypeStreamableHTTP)) ∧
    (¬ (config.Type_ = TransportTypeStdio ∨ config.Type_ = TransportTypeSSE ∨
        config.Type_ = TransportTypeStreamableHTTP) →
      Factory.Create namedSupport config = (none, some errors.ErrUnsupportedTransport)) ∧
    (config.Type_ = TransportTypeInspector →
      Factory.Create namedSupport config = (none, some errors.ErrUnsupportedTransport)) ∧
    (∀ e, (Factory.Create namedSupport config).2 = some e →
      e = errors.ErrUnsupportedTransport) := by
  by_cases h : supportedType config.Type_
  · obtain ⟨t, ht⟩ := create_ok_of_supported namedSupport config h
    have hi : config.Type_ ≠ TransportTypeInspector := by
      intro hc
      rcases h with h | h | h <;> rw [hc] at h <;> revert h <;> decide
    refine ⟨?_, fun hn => absurd h hn, fun hc => absurd hc hi, ?_⟩
    · rw [ht]
      exact ⟨fun hne => absurd rfl hne, fun hn => absurd h hn⟩
    · intro e he
      rw [ht] at he
      cases he
  · have hc := create_of_unsupported namedSupport config h
    refine ⟨?_, fun _ => hc, fun _ => hc, ?_⟩
    · rw [hc]
      exact ⟨fun _ => h, fun _ => by simp⟩
    · intro e he
      rw [hc] at he
      exact (Option.some.inj he).symm

/-- Witness for C2: the kind inspector and an unrecognised kind at a concrete config. -/
theorem create_fails_iff_unsupported_witness :
    Factory.Create (fun _ => true) (sampleConfig "inspector" [("auth", 4)]) =
      (none, some errors.ErrUnsupportedTransport) ∧
    Factory.Create (fun _ => true) (sampleConfig "websocket" []) =
      (none, some errors.ErrUnsupportedTransport) :=
  ⟨(create_fails_iff_unsupported _ _).2.2.1 rfl,
   (create_fails_iff_unsupported _ _).2.1 (by decide)⟩

/-- C3: for every config with a supported Type, the `SetNamedMiddlewares` calls received by
the Transport that `Factory.Create` returns are: exactly one call, with exactly
config.NamedMiddlewares, when the Transport implements the named-middleware capability and
config.NamedMiddlewares is non-empty, and no call otherwise.  The decision reads only the
capability and the emptiness: two supported configs, of whatever Types, whose Transports
agree on the capability and which carry the same NamedMiddlewares see the same calls. -/
theorem create_installs_named_iff_capable (namedSupport : ConcreteType → Bool)
    (config : Config δ η μ ρ)
    (h : config.Type_ = TransportTypeStdio ∨ config.Type_ = TransportTypeSSE ∨
      config.Type_ = TransportTypeStreamableHTTP) :
    ∃ t, Factory.Create namedSupport config = (some t, none) ∧
      (namedSupport t.concreteType = true ∧ config.NamedMiddlewares ≠ [] →
        namedCalls t = [config.NamedMiddlewares]) ∧
      (¬ (namedSupport t.concreteType = true ∧ config.NamedMiddlewares ≠ []) →
        namedCalls t = []) ∧
      (∀ named, MethodCall.SetNamedMiddlewares named ∈ t.calls ↔
        (namedSupport t.concreteType = true ∧ config.NamedMiddlewares ≠ []) ∧
          named = config.NamedMiddlewares) ∧
      (∀ (config' : Config δ η μ ρ) (t' : Transport δ η μ ρ),
        (config'.Type_ = TransportTypeStdio ∨ config'.Type_ = TransportTypeSSE ∨
          config'.Type_ = TransportTypeStreamableHTTP) →
        Factory.Create namedSupport config' = (some t', none) →
        namedSupport t'.concreteType = namedSupport t.concreteType →
        config'.NamedMiddlewares = config.NamedMiddlewares →
        namedCalls t' = namedCalls t) := by
  obtain ⟨t, ht, hcalls, hmem⟩ := create_named_calls namedSupport config h
  refine ⟨t, ht, ?_, ?_, hmem, ?_⟩
  · intro hc
    rw [hcalls, if_pos hc]
  · intro hc
    rw [hcalls, if_neg hc]
  · intro config' t' h' ht' hsame hnamed
    obtain ⟨u, hu, hucalls, -⟩ := create_named_calls namedSupport config' h'
    rw [ht'] at hu
    cases hu
    rw [hucalls, hcalls, hsame, hnamed]

/-- Witness for C3: a capable HTTP transport with one named middleware receives exactly
that call. -/
theorem create_installs_named_iff_capable_witness :
    ∃ t, Factory.Create (fun _ => true) (sampleConfig "sse" [("auth", 4)]) = (some t, none) ∧
      namedCalls t = [[("auth", 4)]] := by
  obtain ⟨t, ht, h1, -⟩ := create_installs_named_iff_capable (fun _ => true)
    (sampleConfig "sse" [("auth", 4)]) (Or.inr (Or.inl rfl))
  exact ⟨t, ht, h1 ⟨rfl, by simp [sampleConfig]⟩⟩

/-- C4: for every config with a supported Type and non-empty NamedMiddlewares whose produced
Transport does not implement the named-middleware capability, `Factory.Create` returns a
nil error and the very Transport it returns for the same config with NamedMiddlewares
emptied: no `SetNamedMiddlewares` call reaches it and the default chain handed to its
constructor is config.Middlewares. -/
theorem create_ignores_named_without_capability (namedSupport : ConcreteType → Bool)
    (config : Config δ η μ ρ) (t : Transport δ η μ ρ)
    (h : config.Type_ = TransportTypeStdio ∨ config.Type_ = TransportTypeSSE ∨
      config.Type_ = TransportTypeStreamableHTTP)
    (hne : config.NamedMiddlewares ≠ [])
    (ht : (Factory.Create namedSupport config).1 = some t)
    (hcap : namedSupport t.concreteType = false) :
    Factory.Create namedSupport config = (some t, none) ∧
    Factory.Create namedSupport { config with NamedMiddlewares := [] } = (some t, none) ∧
    namedCalls t = [] ∧
    t.built.middlewares = config.Middlewares := by
  have _hnonempty := hne
  have hsame : builtFor { config with NamedMiddlewares := [] } = builtFor config := rfl
  have hempty := create_of_supported namedSupport { config with NamedMiddlewares := [] } h
  rw [if_neg (fun hx => absurd hx.2 (by simp)), hsame] at hempty
  have hfull := create_of_supported namedSupport config h
  by_cases hc : namedSupport (builtFor config).concreteType = true ∧
      config.NamedMiddlewares.length > 0
  · rw [if_pos hc] at hfull
    rw [hfull] at ht
    have hteq : (builtFor config).SetNamedMiddlewares config.NamedMiddlewares = t :=
      Option.some.inj ht
    have hty : t.concreteType = (builtFor config).concreteType := by
      rw [← hteq]
      rfl
    rw [hty, hc.1] at hcap
    exact absurd hcap (by decide)
  · rw [if_neg hc] at hfull
    rw [hfull] at ht
    have hteq : builtFor config = t := Option.some.inj ht
    rw [hteq] at hfull hempty
    refine ⟨hfull, hempty, ?_, ?_⟩
    · rw [← hteq]
      exact builtFor_calls_named config
    · rw [← hteq]
      exact builtFor_middlewares config

/-- Witness for C4: stdio transports lack the capability, the config names a middleware. -/
theorem create_ignores_named_without_capability_witness :
    Factory.Create (fun ty => decide (ty = ConcreteType.HTTPTransport))
        (sampleConfig "stdio" [("auth", 4)]) =
      (some (builtFor (sampleConfig "stdio" [("auth", 4)])), none) ∧
    Factory.Create (fun ty => decide (ty = ConcreteType.HTTPTransport))
        (sampleConfig "stdio" []) =
      (some (builtFor (sampleConfig "stdio" [("auth", 4)])), none) :=
  have key := create_ignores_named_without_capability
    (fun ty => decide (ty = ConcreteType.HTTPTransport)) (sampleConfig "stdio" [("auth", 4)])
    (builtFor (sampleConfig "stdio" [("auth", 4)])) (Or.inl rfl) (by simp [sampleConfig])
    rfl rfl
  ⟨key.1, key.2.1⟩

/-- C5: for every config with Type stdio the Transport returned by `Factory.Create` is a
StdioTransport, built by `NewStdioTransport`, whose first call is `SetProxyMode` with
config.ProxyMode and which receives no other `SetProxyMode` call; for Type sse and
streamable-http replacing config.ProxyMode by any other mode leaves the result unchanged. -/
theorem create_stdio_sets_proxy_mode (namedSupport : ConcreteType → Bool)
    (config : Config δ η μ ρ) :
    (config.Type_ = TransportTypeStdio →
      ∃ t, Factory.Create namedSupport config = (some t, none) ∧
        t.concreteType = ConcreteType.StdioTransport ∧
        t.built = Construction.NewStdioTransport config.Host config.ProxyPort config.Deployer
          config.Debug config.PrometheusHandler config.Middlewares ∧
        t.calls.head? = some (MethodCall.SetProxyMode config.ProxyMode) ∧
        proxyModeCalls t = [config.ProxyMode]) ∧
    (config.Type_ = TransportTypeSSE ∨ config.Type_ = TransportTypeStreamableHTTP →
      ∀ mode : ρ, Factory.Create namedSupport { config with ProxyMode := mode } =
        Factory.Create namedSupport config) := by
  constructor
  · intro h
    rw [create_of_supported namedSupport config (Or.inl h)]
    have hb : builtFor config = (NewStdioTransport config.Host config.ProxyPort config.Deployer
        config.Debug config.PrometheusHandler config.Middlewares :
        Transport δ η μ ρ).SetProxyMode config.ProxyMode := by
      unfold builtFor
      rw [if_pos h]
    split
    · refine ⟨_, rfl, ?_, ?_, ?_, ?_⟩ <;> rw [hb] <;> rfl
    · refine ⟨_, rfl, ?_, ?_, ?_, ?_⟩ <;> rw [hb] <;> rfl
  · intro h mode
    have hs : supportedType config.Type_ := Or.inr h
    have hn : config.Type_ ≠ TransportTypeStdio := by
      rcases h with h | h <;> rw [h] <;> decide
    have hb : builtFor { config with ProxyMode := mode } = builtFor config := by
      unfold builtFor
      rw [if_neg hn, if_neg hn]
    rw [create_of_supported namedSupport config hs,
      create_of_supported namedSupport { config with ProxyMode := mode } hs, hb]

/-- Witness for C5: a stdio config, and an sse config whose proxy mode is replaced. -/
theorem create_stdio_sets_proxy_mode_witness :
    (∃ t, Factory.Create (fun _ => true) (sampleConfig "stdio" [("auth", 4)]) = (some t, none) ∧
      proxyModeCalls t = ["sse"]) ∧
    Factory.Create (fun _ => true)
        { sampleConfig "sse" [("auth", 4)] with ProxyMode := "streamable-http" } =
      Factory.Create (fun _ => true) (sampleConfig "sse" [("auth", 4)]) := by
  obtain ⟨t, ht, -, -, -, hp⟩ :=
    (create_stdio_sets_proxy_mode (fun _ => true) (sampleConfig "stdio" [("auth", 4)])).1 rfl
  exact ⟨⟨t, ht, hp⟩,
    (create_stdio_sets_proxy_mode (fun _ => true) (sampleConfig "sse" [("auth", 4)])).2
      (Or.inl rfl) "streamable-http"⟩

/-- C6: for every config c with Type sse or streamable-http the Transport returned by
`Factory.Create` is an HTTPTransport built by the one constructor call
`NewHTTPTransport(c.Type, c.Host, c.ProxyPort, c.TargetPort, c.Deployer, c.Debug,
c.TargetHost, c.AuthInfoHandler, c.PrometheusHandler, c.Middlewares...)`; and the two
configs that differ from c only in Type (sse, streamable-http) are built by constructor
calls that differ only in the sub-mode argument. -/
theorem create_http_single_constructor (namedSupport : ConcreteType → Bool)
    (c : Config δ η μ ρ)
    (h : c.Type_ = TransportTypeSSE ∨ c.Type_ = TransportTypeStreamableHTTP) :
    (∃ t, Factory.Create namedSupport c = (some t, none) ∧
      t.built = specHTTPConstruction c ∧
      t.concreteType = ConcreteType.HTTPTransport) ∧
    (∃ t₁ t₂,
      Factory.Create namedSupport { c with Type_ := TransportTypeSSE } = (some t₁, none) ∧
      Factory.Create namedSupport { c with Type_ := TransportTypeStreamableHTTP } =
        (some t₂, none) ∧
      t₁.built = Construction.NewHTTPTransport TransportTypeSSE c.Host c.ProxyPort
        c.TargetPort c.Deployer c.Debug c.TargetHost c.AuthInfoHandler c.PrometheusHandler
        c.Middlewares ∧
      t₂.built = Construction.NewHTTPTransport TransportTypeStreamableHTTP c.Host c.ProxyPort
        c.TargetPort c.Deployer c.Debug c.TargetHost c.AuthInfoHandler c.PrometheusHandler
        c.Middlewares ∧
      t₁.calls = t₂.calls) := by
  have hn : c.Type_ ≠ TransportTypeStdio := by
    rcases h with h | h <;> rw [h] <;> decide
  constructor
  · obtain ⟨t, ht, hb, -⟩ := create_built namedSupport c (Or.inr h)
    have hbuilt : (builtFor c).built = specHTTPConstruction c := by
      unfold builtFor
      rw [if_neg hn]
      rfl
    refine ⟨t, ht, hb.trans hbuilt, ?_⟩
    unfold Transport.concreteType
    rw [hb, hbuilt]
    rfl
  · have h1 := create_of_supported namedSupport { c with Type_ := TransportTypeSSE }
      (Or.inr (Or.inl rfl))
    have h2 := create_of_supported namedSupport { c with Type_ := TransportTypeStreamableHTTP }
      (Or.inr (Or.inr rfl))
    have hb1 : builtFor { c with Type_ := TransportTypeSSE } =
        NewHTTPTransport TransportTypeSSE c.Host c.ProxyPort c.TargetPort c.Deployer c.Debug
          c.TargetHost c.AuthInfoHandler c.PrometheusHandler c.Middlewares := by
      unfold builtFor
      rw [if_neg stdio_ne_sse.symm]
    have hb2 : builtFor { c with Type_ := TransportTypeStreamableHTTP } =
        NewHTTPTransport TransportTypeStreamableHTTP c.Host c.ProxyPort c.TargetPort c.Deployer
          c.Debug c.TargetHost c.AuthInfoHandler c.PrometheusHandler c.Middlewares := by
      unfold builtFor
      rw [if_neg stdio_ne_streamable.symm]
    rw [hb1] at h1
    rw [hb2] at h2
    rw [h1, h2]
    by_cases hc : namedSupport ConcreteType.HTTPTransport = true ∧
        c.NamedMiddlewares.length > 0
    · have hc1 : namedSupport (NewHTTPTransport TransportTypeSSE c.Host c.ProxyPort
          c.TargetPort c.Deployer c.Debug c.TargetHost c.AuthInfoHandler c.PrometheusHandler
          c.Middlewares : Transport δ η μ ρ).concreteType = true ∧
          c.NamedMiddlewares.length > 0 := hc
      have hc2 : namedSupport (NewHTTPTransport TransportTypeStreamableHTTP c.Host c.ProxyPort
          c.TargetPort c.Deployer c.Debug c.TargetHost c.AuthInfoHandler c.PrometheusHandler
          c.Middlewares : Transport δ η μ ρ).concreteType = true ∧
          c.NamedMiddlewares.length > 0 := hc
      rw [if_pos hc1, if_pos hc2]
      exact ⟨_, _, rfl, rfl, rfl, rfl, rfl⟩
    · have hc1 : ¬ (namedSupport (NewHTTPTransport TransportTypeSSE c.Host c.ProxyPort
          c.TargetPort c.Deployer c.Debug c.TargetHost c.AuthInfoHandler c.PrometheusHandler
          c.Middlewares : Transport δ η μ ρ).concreteType = true ∧
          c.NamedMiddlewares.length > 0) := hc
      have hc2 : ¬ (namedSupport (NewHTTPTransport TransportTypeStreamableHTTP c.Host
          c.ProxyPort c.TargetPort c.Deployer c.Debug c.TargetHost c.AuthInfoHandler
          c.PrometheusHandler c.Middlewares : Transport δ η μ ρ).concreteType = true ∧
          c.NamedMiddlewares.length > 0) := hc
      rw [if_neg hc1, if_neg hc2]
      exact ⟨_, _, rfl, rfl, rfl, rfl, rfl⟩

/-- Witness for C6: a streamable-http config is built by `NewHTTPTransport` with that
sub-mode and the config's own fields. -/
theorem create_http_single_constructor_witness :
    ∃ t, Factory.Create (fun _ => true) (sampleConfig "streamable-http" [("auth", 4)]) =
        (some t, none) ∧
      t.built = Construction.NewHTTPTransport "streamable-http" "127.0.0.1" 8080 3000 0 false
        "localhost" 9 7 [1, 2, 3] := by
  obtain ⟨t, ht, hb, -⟩ := (create_http_single_constructor (fun _ => true)
    (sampleConfig "streamable-http" [("auth", 4)]) (Or.inr rfl)).1
  exact ⟨t, ht, hb⟩

/-- C7: for every config with a supported Type, the default middleware list handed by
`Factory.Create` to the transport constructor is exactly config.Middlewares (the same
list: same elements, same order, nothing added, dropped or duplicated), and the
constructor call is the same whatever config.NamedMiddlewares is. -/
theorem create_passes_default_middlewares (namedSupport : ConcreteType → Bool)
    (config : Config δ η μ ρ)
    (h : config.Type_ = TransportTypeStdio ∨ config.Type_ = TransportTypeSSE ∨
      config.Type_ = TransportTypeStreamableHTTP) :
    ∃ t, Factory.Create namedSupport config = (some t, none) ∧
      t.built.middlewares = config.Middlewares ∧
      ∀ named : List (String × μ),
        ∃ t', Factory.Create namedSupport { config with NamedMiddlewares := named } =
            (some t', none) ∧
          t'.built = t.built ∧ t'.built.middlewares = config.Middlewares := by
  obtain ⟨t, ht, hb, -⟩ := create_built namedSupport config h
  have hm : t.built.middlewares = config.Middlewares := by
    rw [hb]
    exact builtFor_middlewares config
  refine ⟨t, ht, hm, ?_⟩
  intro named
  obtain ⟨t', ht', hb', -⟩ :=
    create_built namedSupport { config with NamedMiddlewares := named } h
  have hsame : builtFor { config with NamedMiddlewares := named } = builtFor config := rfl
  refine ⟨t', ht', ?_, ?_⟩
  · rw [hb', hb, hsame]
  · rw [hb', hsame]
    exact builtFor_middlewares config

/-- Witness for C7: the chain `[1, 2, 3]` of a stdio config reaches the constructor as it is. -/
theorem create_passes_default_middlewares_witness :
    ∃ t, Factory.Create (fun _ => true) (sampleConfig "stdio" [("auth", 4)]) = (some t, none) ∧
      t.built.middlewares = [1, 2, 3] := by
  obtain ⟨t, ht, hm, -⟩ := create_passes_default_middlewares (fun _ => true)
    (sampleConfig "stdio" [("auth", 4)]) (Or.inl rfl)
  exact ⟨t, ht, hm⟩

end transport

/-! ## String functions -/

namespace strings

theorem toList_append (a b : String) : (a ++ b).toList = a.toList ++ b.toList := by
  simp [String.toList, String.data_append]

theorem hasPrefix_append (p t : String) : HasPrefix (p ++ t) p = true := by
  unfold HasPrefix
  rw [toList_append, List.isPrefixOf_iff_prefix]
  exact List.prefix_append _ _

theorem trimPrefix_append (p t : String) : TrimPrefix (p ++ t) p = t := by
  unfold TrimPrefix
  rw [if_pos (hasPrefix_append p t), toList_append]
  have hlen : p.length = p.toList.length := rfl
  rw [hlen, List.drop_left]
  rfl

theorem contains_append_self (a b : String) : Contains (a ++ b) b := by
  unfold Contains
  rw [toList_append]
  exact (List.suffix_append _ _).isInfix

/-- `strings.Split` on the boundary cases: no separator, empty input, leading, trailing
and doubled separators. -/
theorem split_examples :
    Split "openid backend-access" ' ' = ["openid", "backend-access"] ∧
    Split "backend-access" ' ' = ["backend-access"] ∧
    Split "" ' ' = [""] ∧
    Split " a" ' ' = ["", "a"] ∧
    Split "a " ' ' = ["a", ""] ∧
    Split "a  b" ' ' = ["a", "", "b"] := by
  decide

theorem contains_append_right (a b sub : String) (h : Contains a sub) :
    Contains (a ++ b) sub := by
  unfold Contains at *
  rw [toList_append]
  exact h.trans (List.prefix_append _ _).isInfix

end strings

/-! ## `validateToken` and `requireAuth` -/

namespace backend

theorem any_beq_iff_mem (xs : List String) (x : String) :
    xs.any (fun y => y == x) = true ↔ x ∈ xs := by
  rw [List.any_eq_true]
  constructor
  · rintro ⟨y, hy, hyx⟩
    rw [beq_iff_eq] at hyx
    exact hyx ▸ hy
  · intro hx
    exact ⟨x, hx, beq_self_eq_true x⟩

/-- The result of `validateToken` on a token that passes parsing, by the two checks. -/
theorem validateToken_of_parsed (parse : Parser) (s : BackendService) (tokenString : String)
    (token : Token) (claims : Claims)
    (hparse : parse tokenString (keyFunc s) = .ok token)
    (hclaims : token.Claims = some claims) (hvalid : token.Valid = true) :
    validateToken parse s tokenString =
      if s.config.RequiredAud ∈ claims.Audience then
        if s.config.RequiredScope ∈ strings.Split claims.Scope ' ' then .ok claims
        else .error ⟨"missing required scope: " ++ s.config.RequiredScope⟩
      else .error ⟨"invalid audience: expected " ++ s.config.RequiredAud ++ ", got "
        ++ fmt.sliceV claims.Audience⟩ := by
  unfold validateToken
  simp only [hparse, hclaims, hvalid]
  by_cases ha : s.config.RequiredAud ∈ claims.Audience
  · have ha' := (any_beq_iff_mem _ _).2 ha
    by_cases hs : s.config.RequiredScope ∈ strings.Split claims.Scope ' '
    · have hs' := (any_beq_iff_mem _ _).2 hs
      simp [ha, hs, ha', hs']
    · have hs' : (strings.Split claims.Scope ' ').any
          (fun scope => scope == s.config.RequiredScope) = false := by
        rw [← Bool.not_eq_true, any_beq_iff_mem]
        exact hs
      simp [ha, hs, ha', hs']
  · have ha' : claims.Audience.any (fun aud => aud == s.config.RequiredAud) = false := by
      rw [← Bool.not_eq_true, any_beq_iff_mem]
      exact ha
    simp [ha, ha']

/-- The run of `requireAuth` on a request carrying a bearer token. -/
theorem requireAuth_of_bearer (parse : Parser) (s : BackendService) (r : Request)
    (tokenString : String) (hhdr : r.HeaderGet "Authorization" = "Bearer " ++ tokenString) :
    requireAuth parse s r =
      match validateToken parse s tokenString with
      | .error err =>
        { events := [.validateToken tokenString],
          written := some
            { Status := StatusUnauthorized,
              ContentType := "application/json",
              Body := .json
                [("demo_note", "🚫 Token validation failed - production-ready validation!"),
                 ("details", err.msg),
                 ("error", "Token validation failed")] } }
      | .ok claims =>
        { events := [.validateToken tokenString, .next (r.WithValue "claims" claims)],
          written := none } := by
  have hne : ¬ ("Bearer " ++ tokenString = "" ∨
      strings.HasPrefix ("Bearer " ++ tokenString) "Bearer " = false) := by
    rintro (h | h)
    · have := congrArg String.toList h
      rw [strings.toList_append] at this
      simp at this
    · rw [strings.hasPrefix_append] at h
      exact absurd h (by decide)
  unfold requireAuth
  simp only [hhdr, if_neg hne, strings.trimPrefix_append]

theorem field_details_of_json (note details error : String) :
    (Body.json [("demo_note", note), ("details", details), ("error", error)]).field "details" =
      some details := by
  have h1 : ("details" == "demo_note") = false := by decide
  have h2 : ("details" == "details") = true := by decide
  simp only [Body.field, Body.members, List.lookup, h1, h2]

theorem field_error_of_json (note details error : String) :
    (Body.json [("demo_note", note), ("details", details), ("error", error)]).field "error" =
      some error := by
  have h1 : ("error" == "demo_note") = false := by decide
  have h2 : ("error" == "details") = false := by decide
  have h3 : ("error" == "error") = true := by decide
  simp only [Body.field, Body.members, List.lookup, h1, h2, h3]

theorem invalid_audience_message_contains (aud : String) (got : List String) :
    strings.Contains
      ("invalid audience: expected " ++ aud ++ ", got " ++ fmt.sliceV got) "invalid audience" := by
  apply strings.contains_append_right
  apply strings.contains_append_right
  apply strings.contains_append_right
  decide

/-- The run of `requireAuth` on a request without a usable Authorization header. -/
theorem requireAuth_of_no_bearer (parse : Parser) (s : BackendService) (r : Request)
    (h : r.HeaderGet "Authorization" = "" ∨
      strings.HasPrefix (r.HeaderGet "Authorization") "Bearer " = false) :
    requireAuth parse s r =
      { events := [], written := some (httpError missingHeaderText StatusUnauthorized) } := by
  unfold requireAuth
  simp only [if_pos h]
  rfl

theorem missingHeader_fields :
    (httpError missingHeaderText StatusUnauthorized).Body.field "error" =
      some "Missing or invalid Authorization header" ∧
    (httpError missingHeaderText StatusUnauthorized).Body.field "demo_note" =
      some "🚫 No token provided" ∧
    (httpError missingHeaderText StatusUnauthorized).Body.field "details" = none := by
  decide

/-! ## Claims about the demo backend service -/

/-- C8: for every token that passes parsing (no parse error, claims of type `*Claims`, token
valid) and whose audience list does not contain the configured RequiredAud, whatever its
scope string, `validateToken` returns an error whose message contains "invalid audience",
and `requireAuth`, on a request carrying that token as bearer token, answers with HTTP 401
and a body whose details field contains "invalid audience", without calling `next`. -/
theorem invalid_audience_rejected (parse : Parser) (s : BackendService) (r : Request)
    (tokenString : String) (token : Token) (claims : Claims)
    (hparse : parse tokenString (keyFunc s) = .ok token)
    (hclaims : token.Claims = some claims) (hvalid : token.Valid = true)
    (haud : s.config.RequiredAud ∉ claims.Audience)
    (hhdr : r.HeaderGet "Authorization" = "Bearer " ++ tokenString) :
    (∃ err, validateToken parse s tokenString = .error err ∧
      strings.Contains err.msg "invalid audience") ∧
    (∃ resp, (requireAuth parse s r).written = some resp ∧
      resp.Status = 401 ∧
      ∃ details, resp.Body.field "details" = some details ∧
        strings.Contains details "invalid audience") ∧
    (∀ r', AuthEvent.next r' ∉ (requireAuth parse s r).events) := by
  have hv := validateToken_of_parsed parse s tokenString token claims hparse hclaims hvalid
  rw [if_neg haud] at hv
  have hc := invalid_audience_message_contains s.config.RequiredAud claims.Audience
  have hr := requireAuth_of_bearer parse s r tokenString hhdr
  rw [hv] at hr
  refine ⟨⟨_, hv, hc⟩, ?_, ?_⟩
  · rw [hr]
    exact ⟨_, rfl, rfl, _, field_details_of_json _ _ _, hc⟩
  · intro r' hmem
    rw [hr] at hmem
    simp at hmem

/-- Witness for C8, the scenario of the specification: required audience "backend",
required scope "backend-access", token audience `["other"]`. -/
theorem invalid_audience_rejected_witness :
    ∃ resp, (requireAuth (sampleParser (sampleClaims ["other"] "backend-access")) sampleService
        (sampleRequest "Bearer abc")).written = some resp ∧
      resp.Status = 401 ∧
      ∃ details, resp.Body.field "details" = some details ∧
        strings.Contains details "invalid audience" :=
  (invalid_audience_rejected (sampleParser (sampleClaims ["other"] "backend-access"))
    sampleService (sampleRequest "Bearer abc") "abc" _ (sampleClaims ["other"] "backend-access")
    rfl rfl rfl (by decide) (by decide)).2.1

/-- C9: for every token that passes parsing, `validateToken` succeeds if and only if
RequiredAud is an element of the audience list and RequiredScope equals one of the pieces of
the scope claim split on single spaces, and then it returns the token's claims; when the
audience check passes and no piece equals RequiredScope (in particular when RequiredScope
only occurs inside longer pieces) it returns the error
"missing required scope: <RequiredScope>". -/
theorem validateToken_succeeds_iff (parse : Parser) (s : BackendService)
    (tokenString : String) (token : Token) (claims : Claims)
    (hparse : parse tokenString (keyFunc s) = .ok token)
    (hclaims : token.Claims = some claims) (hvalid : token.Valid = true) :
    ((∃ c, validateToken parse s tokenString = .ok c) ↔
      s.config.RequiredAud ∈ claims.Audience ∧
        s.config.RequiredScope ∈ strings.Split claims.Scope ' ') ∧
    (∀ c, validateToken parse s tokenString = .ok c → c = claims) ∧
    (s.config.RequiredAud ∈ claims.Audience →
      s.config.RequiredScope ∉ strings.Split claims.Scope ' ' →
      validateToken parse s tokenString =
        .error ⟨"missing required scope: " ++ s.config.RequiredScope⟩) ∧
    (s.config.RequiredAud ∈ claims.Audience →
      (∀ piece ∈ strings.Split claims.Scope ' ',
        strings.Contains piece s.config.RequiredScope → piece ≠ s.config.RequiredScope) →
      validateToken parse s tokenString =
        .error ⟨"missing required scope: " ++ s.config.RequiredScope⟩) := by
  have hv := validateToken_of_parsed parse s tokenString token claims hparse hclaims hvalid
  have hmissing : s.config.RequiredAud ∈ claims.Audience →
      s.config.RequiredScope ∉ strings.Split claims.Scope ' ' →
      validateToken parse s tokenString =
        .error ⟨"missing required scope: " ++ s.config.RequiredScope⟩ := by
    intro ha hs
    rw [hv, if_pos ha, if_neg hs]
  refine ⟨?_, ?_, hmissing, ?_⟩
  · constructor
    · rintro ⟨c, hc⟩
      rw [hv] at hc
      by_cases ha : s.config.RequiredAud ∈ claims.Audience
      · by_cases hs : s.config.RequiredScope ∈ strings.Split claims.Scope ' '
        · exact ⟨ha, hs⟩
        · rw [if_pos ha, if_neg hs] at hc
          cases hc
      · rw [if_neg ha] at hc
        cases hc
    · rintro ⟨ha, hs⟩
      exact ⟨claims, by rw [hv, if_pos ha, if_pos hs]⟩
  · intro c hc
    rw [hv] at hc
    split at hc
    · split at hc
      · cases hc
        rfl
      · cases hc
    · cases hc
  · intro ha hpieces
    apply hmissing ha
    intro hmem
    exact hpieces _ hmem List.infix_rfl rfl

/-- Witness for C9: the scope "openid backend-access-extra" contains the required scope
"backend-access" only inside a longer piece and is refused; the scope
"openid backend-access" is accepted. -/
theorem validateToken_succeeds_iff_witness :
    validateToken (sampleParser (sampleClaims ["backend"] "openid backend-access-extra"))
        sampleService "abc" =
      .error ⟨"missing required scope: backend-access"⟩ ∧
    (∃ c, validateToken (sampleParser (sampleClaims ["backend"] "openid backend-access"))
        sampleService "abc" = .ok c) :=
  ⟨(validateToken_succeeds_iff
      (sampleParser (sampleClaims ["backend"] "openid backend-access-extra")) sampleService
      "abc" _ (sampleClaims ["backend"] "openid backend-access-extra") rfl rfl rfl).2.2.1
      (by decide) (by decide),
   (validateToken_succeeds_iff
      (sampleParser (sampleClaims ["backend"] "openid backend-access")) sampleService
      "abc" _ (sampleClaims ["backend"] "openid backend-access") rfl rfl rfl).1.2
      ⟨by decide, by decide⟩⟩

/-- C10, counterexample: a request without an Authorization header is rejected by
`requireAuth` with status 401, but its body carries no "details" field. -/
theorem requireAuth_missing_header_lacks_details :
    (requireAuth (sampleParser (sampleClaims ["backend"] "backend-access")) sampleService
      { Header := [], Context := [] }).rejected ∧
    ¬ ∃ resp, (requireAuth (sampleParser (sampleClaims ["backend"] "backend-access"))
          sampleService { Header := [], Context := [] }).written = some resp ∧
        resp.Status = 401 ∧
        (∃ e, resp.Body.field "error" = some e) ∧
        (∃ d, resp.Body.field "details" = some d) := by
  have hrun := requireAuth_of_no_bearer (sampleParser (sampleClaims ["backend"] "backend-access"))
    sampleService { Header := [], Context := [] } (Or.inl rfl)
  constructor
  · rw [hrun]
    decide
  · rintro ⟨resp, hw, -, -, d, hd⟩
    rw [hrun] at hw
    cases hw
    rw [missingHeader_fields.2.2] at hd
    cases hd

/-- C10, amended: every request that `requireAuth` rejects gets HTTP status 401 and a body
that reads as a JSON object with an "error" field.  When the Authorization header is
missing or does not start with "Bearer ", the body is the fixed text with the fields
"error" and "demo_note" and no "details" field; otherwise token validation failed and the
body carries a "details" field holding the message of the validation error. -/
theorem requireAuth_rejection_body (parse : Parser) (s : BackendService) (r : Request)
    (h : (requireAuth parse s r).rejected) :
    ∃ resp, (requireAuth parse s r).written = some resp ∧
      resp.Status = 401 ∧
      (∃ e, resp.Body.field "error" = some e) ∧
      ((r.HeaderGet "Authorization" = "" ∨
          strings.HasPrefix (r.HeaderGet "Authorization") "Bearer " = false) →
        resp.Body = Body.text (missingHeaderText ++ "\n") ∧
        (∃ n, resp.Body.field "demo_note" = some n) ∧
        resp.Body.field "details" = none) ∧
      (¬ (r.HeaderGet "Authorization" = "" ∨
          strings.HasPrefix (r.HeaderGet "Authorization") "Bearer " = false) →
        ∃ err, validateToken parse s
            (strings.TrimPrefix (r.HeaderGet "Authorization") "Bearer ") = .error err ∧
          resp.Body.field "details" = some err.msg) := by
  by_cases hh : r.HeaderGet "Authorization" = "" ∨
      strings.HasPrefix (r.HeaderGet "Authorization") "Bearer " = false
  · rw [requireAuth_of_no_bearer parse s r hh]
    refine ⟨_, rfl, rfl, ⟨_, missingHeader_fields.1⟩, ?_, fun hn => absurd hh hn⟩
    intro _
    exact ⟨rfl, ⟨_, missingHeader_fields.2.1⟩, missingHeader_fields.2.2⟩
  · unfold AuthRun.rejected at h
    unfold requireAuth at h ⊢
    simp only [if_neg hh] at h ⊢
    cases hv : validateToken parse s
        (strings.TrimPrefix (r.HeaderGet "Authorization") "Bearer ") with
    | error err =>
      simp only [hv]
      refine ⟨_, rfl, rfl, ⟨_, field_error_of_json _ _ _⟩, fun hy => absurd hy hh, ?_⟩
      intro _
      exact ⟨err, rfl, field_details_of_json _ _ _⟩
    | ok claims =>
      rw [hv] at h
      exact absurd rfl h

/-- Witness for C10 as amended: a bearer token with the wrong audience is rejected with a
"details" field. -/
theorem requireAuth_rejection_body_witness :
    ∃ resp, (requireAuth (sampleParser (sampleClaims ["other"] "backend-access")) sampleService
        (sampleRequest "Bearer abc")).written = some resp ∧
      resp.Status = 401 ∧
      (∃ e, resp.Body.field "error" = some e) := by
  obtain ⟨resp, hw, hs, he, -⟩ := requireAuth_rejection_body
    (sampleParser (sampleClaims ["other"] "backend-access")) sampleService
    (sampleRequest "Bearer abc") (by decide)
  exact ⟨resp, hw, hs, he⟩

/-- C11: for every request whose Authorization header is "Bearer " followed by a token t
for which `validateToken` succeeds with claims c, `requireAuth` validates t and then calls
the wrapped handler exactly once, with the request whose context maps the key "claims" to
exactly c (the header unchanged), and writes no response itself. -/
theorem requireAuth_passes_claims (parse : Parser) (s : BackendService) (r : Request)
    (t : String) (c : Claims)
    (hhdr : r.HeaderGet "Authorization" = "Bearer " ++ t)
    (hvalid : validateToken parse s t = .ok c) :
    (requireAuth parse s r).events =
      [AuthEvent.validateToken t, AuthEvent.next (r.WithValue "claims" c)] ∧
    (requireAuth parse s r).events.filterMap AuthEvent.next? = [r.WithValue "claims" c] ∧
    (r.WithValue "claims" c).Value "claims" = some c ∧
    (r.WithValue "claims" c).Header = r.Header ∧
    (requireAuth parse s r).written = none := by
  have hr := requireAuth_of_bearer parse s r t hhdr
  rw [hvalid] at hr
  have hlookup : (r.WithValue "claims" c).Value "claims" = some c := by
    have hkey : ("claims" == "claims") = true := by decide
    simp only [Request.Value, Request.WithValue, List.lookup, hkey]
  rw [hr]
  exact ⟨rfl, rfl, hlookup, rfl, rfl⟩

/-- Witness for C11: a token with audience "backend" and scope "backend-access" reaches
the wrapped handler with its claims in the context. -/
theorem requireAuth_passes_claims_witness :
    (requireAuth (sampleParser (sampleClaims ["backend"] "openid backend-access")) sampleService
        (sampleRequest "Bearer abc")).events.filterMap AuthEvent.next? =
      [(sampleRequest "Bearer abc").WithValue "claims"
        (sampleClaims ["backend"] "openid backend-access")] ∧
    (requireAuth (sampleParser (sampleClaims ["backend"] "openid backend-access")) sampleService
        (sampleRequest "Bearer abc")).written = none :=
  have key := requireAuth_passes_claims
    (sampleParser (sampleClaims ["backend"] "openid backend-access")) sampleService
    (sampleRequest "Bearer abc") "abc" (sampleClaims ["backend"] "openid backend-access")
    (by decide) (by rfl)
  ⟨key.2.1, key.2.2.2.2⟩

end backend

end Toolhive

namespace Toolhive

/-! ## `cleanupSpecificGroup` and `StopAndRemoveMCPServer` -/

namespace e2e

variable {σ : Type}

/-- The runs of `cleanupSpecificGroup` for a group that exists: the four shapes. -/
theorem cleanup_of_existing (o : Outcomes) (g : String)
    (hm : o.groupsNewManager = none) (hex : o.groupExists = (true, none)) :
    cleanupSpecificGroup o g =
      (if o.listWorkloadsInGroup.2 ≠ none ∨ o.listWorkloadsInGroup.1 = [] then
        [Call.groupsNewManager, Call.Exists g, Call.ListWorkloadsInGroup g, Call.Delete g]
      else if o.workloadsNewManager ≠ none then
        [Call.groupsNewManager, Call.Exists g, Call.ListWorkloadsInGroup g,
         Call.workloadsNewManager, Call.Delete g]
      else if o.deleteWorkloads ≠ none then
        [Call.groupsNewManager, Call.Exists g, Call.ListWorkloadsInGroup g,
         Call.workloadsNewManager, Call.DeleteWorkloads o.listWorkloadsInGroup.1,
         Call.Delete g]
      else
        [Call.groupsNewManager, Call.Exists g, Call.ListWorkloadsInGroup g,
         Call.workloadsNewManager, Call.DeleteWorkloads o.listWorkloadsInGroup.1,
         Call.Wait, Call.Delete g]) := by
  have hguard : ¬ (o.groupExists.2 ≠ none ∨ o.groupExists.1 = false) := by
    rw [hex]
    simp
  unfold cleanupSpecificGroup
  simp only [hm, if_neg hguard]
  cases hl : o.listWorkloadsInGroup.2 with
  | some e => simp
  | none =>
    cases hnames : o.listWorkloadsInGroup.1 with
    | nil => simp
    | cons name rest =>
      cases hw : o.workloadsNewManager with
      | some e => simp
      | none =>
        cases hd : o.deleteWorkloads with
        | some e => simp
        | none =>
          cases hwait : o.wait with
          | some e => simp
          | none => simp

/-- For a group that exists, `Delete` is called exactly once, as the last call. -/
theorem cleanup_existing_deletes_once (o : Outcomes) (g : String)
    (hm : o.groupsNewManager = none) (hex : o.groupExists = (true, none)) :
    deleteCount (cleanupSpecificGroup o g) g = 1 ∧
    (cleanupSpecificGroup o g).getLast? = some (Call.Delete g) := by
  rw [cleanup_of_existing o g hm hex]
  unfold deleteCount
  split_ifs <;> simp [List.count_cons]

/-- Without a group manager, or without a positive answer of `Exists`, nothing is
deleted. -/
theorem cleanup_absent_deletes_nothing (o : Outcomes) (g : String)
    (h : o.groupsNewManager ≠ none ∨ o.groupExists.2 ≠ none ∨ o.groupExists.1 = false) :
    deleteCount (cleanupSpecificGroup o g) g = 0 := by
  unfold cleanupSpecificGroup deleteCount
  cases hm : o.groupsNewManager with
  | some e => simp [List.count_cons]
  | none =>
    have hguard : o.groupExists.2 ≠ none ∨ o.groupExists.1 = false := by
      rcases h with h | h | h
      · exact absurd hm h
      · exact Or.inl h
      · exact Or.inr h
    simp only [if_pos hguard]
    simp [List.count_cons]

/-- Independence of `wait`: the calls do not depend on what `Wait` returns. -/
theorem cleanup_ignores_wait (o : Outcomes) (g : String) (w : Option GoError) :
    cleanupSpecificGroup { o with wait := w } g = cleanupSpecificGroup o g := by
  cases o with
  | mk gm ex lw wm dw wt dl =>
    cases gm <;> cases wm <;> cases dw <;> cases wt <;> cases w <;> rfl

/-! ## Claims about the e2e helpers -/

/-- C12, counterexample: when the existence check returns an error, `cleanupSpecificGroup`
stops after `Exists` and never calls `groupManager.Delete`. -/
theorem cleanup_failed_exists_skips_delete :
    ({ allSucceed ["w1"] with
        groupExists := (true, some ⟨"group store unavailable"⟩) } : Outcomes).groupExists.2 ≠
      none ∧
    Call.Delete "demo" ∉ cleanupSpecificGroup
      { allSucceed ["w1"] with groupExists := (true, some ⟨"group store unavailable"⟩) }
      "demo" ∧
    cleanupSpecificGroup
      { allSucceed ["w1"] with groupExists := (true, some ⟨"group store unavailable"⟩) }
      "demo" = [Call.groupsNewManager, Call.Exists "demo"] := by
  decide

/-- C12, amended: once the group manager exists and `Exists` has answered (true, nil), a
failure of any later step (listing the members, obtaining the workload manager, initiating
`DeleteWorkloads`, `Wait`) degrades to deleting the group anyway: `groupManager.Delete` is
called for the group exactly once, as the last call.  A failure of the existence check, or
of obtaining the group manager, ends the cleanup without a call of `Delete`. -/
theorem cleanup_later_failure_still_deletes (o : Outcomes) (g : String) :
    (o.groupsNewManager = none → o.groupExists = (true, none) →
      (o.listWorkloadsInGroup.2 ≠ none ∨ o.workloadsNewManager ≠ none ∨
        o.deleteWorkloads ≠ none ∨ o.wait ≠ none) →
      deleteCount (cleanupSpecificGroup o g) g = 1 ∧
      (cleanupSpecificGroup o g).getLast? = some (Call.Delete g)) ∧
    (o.groupsNewManager ≠ none ∨ o.groupExists.2 ≠ none →
      deleteCount (cleanupSpecificGroup o g) g = 0 ∧
      Call.Delete g ∉ cleanupSpecificGroup o g) := by
  constructor
  · intro hm hex _
    exact cleanup_existing_deletes_once o g hm hex
  · intro h
    have hcount := cleanup_absent_deletes_nothing o g
      (h.elim Or.inl (fun hx => Or.inr (Or.inl hx)))
    refine ⟨hcount, ?_⟩
    unfold deleteCount at hcount
    exact List.count_eq_zero.1 hcount

/-- Witness for C12 as amended: `Wait` fails for a group with two members, and the group
is deleted all the same. -/
theorem cleanup_later_failure_still_deletes_witness :
    deleteCount (cleanupSpecificGroup
      { allSucceed ["w1", "w2"] with wait := some ⟨"failed to delete w2"⟩ } "demo") "demo" = 1 :=
  ((cleanup_later_failure_still_deletes
    { allSucceed ["w1", "w2"] with wait := some ⟨"failed to delete w2"⟩ } "demo").1
    rfl rfl (Or.inr (Or.inr (Or.inr (by decide))))).1

/-- C13, counterexample: when `Wait` returns an error the group is still deleted, but the
run is the same as when `Wait` succeeds: the function returns no value and makes no further
call, so the failure reaches nobody. -/
theorem cleanup_wait_failure_unreported :
    Call.Delete "demo" ∈ cleanupSpecificGroup
      { allSucceed ["w1", "w2"] with wait := some ⟨"failed to delete w2"⟩ } "demo" ∧
    cleanupSpecificGroup
        { allSucceed ["w1", "w2"] with wait := some ⟨"failed to delete w2"⟩ } "demo" =
      cleanupSpecificGroup (allSucceed ["w1", "w2"]) "demo" := by
  decide

/-- C13, amended: when deletion of a member fails during cascading group deletion (`Wait`
returns an error), `cleanupSpecificGroup` still calls `groupManager.Delete` for the group,
exactly once and right after `Wait`; the error is dropped: the function returns no value,
and its calls are those of the run in which `Wait` succeeds. -/
theorem cleanup_wait_failure_deletes_group (o : Outcomes) (g : String)
    (names : List String) (err : GoError)
    (hm : o.groupsNewManager = none) (hex : o.groupExists = (true, none))
    (hlist : o.listWorkloadsInGroup = (names, none)) (hnames : names ≠ [])
    (hwm : o.workloadsNewManager = none) (hdw : o.deleteWorkloads = none)
    (hwait : o.wait = some err) :
    cleanupSpecificGroup o g =
      [Call.groupsNewManager, Call.Exists g, Call.ListWorkloadsInGroup g,
       Call.workloadsNewManager, Call.DeleteWorkloads names, Call.Wait, Call.Delete g] ∧
    deleteCount (cleanupSpecificGroup o g) g = 1 ∧
    cleanupSpecificGroup o g = cleanupSpecificGroup { o with wait := none } g := by
  have _hfailed := hwait
  have hshape := cleanup_of_existing o g hm hex
  have h1 : ¬ (o.listWorkloadsInGroup.2 ≠ none ∨ o.listWorkloadsInGroup.1 = []) := by
    rw [hlist]
    simp [hnames]
  have h2 : ¬ (o.workloadsNewManager ≠ none) := by simp [hwm]
  have h3 : ¬ (o.deleteWorkloads ≠ none) := by simp [hdw]
  rw [if_neg h1, if_neg h2, if_neg h3, hlist] at hshape
  refine ⟨hshape, (cleanup_existing_deletes_once o g hm hex).1, ?_⟩
  exact (cleanup_ignores_wait o g none).symm

/-- Witness for C13 as amended. -/
theorem cleanup_wait_failure_deletes_group_witness :
    cleanupSpecificGroup
        { allSucceed ["w1", "w2"] with wait := some ⟨"failed to delete w2"⟩ } "demo" =
      [Call.groupsNewManager, Call.Exists "demo", Call.ListWorkloadsInGroup "demo",
       Call.workloadsNewManager, Call.DeleteWorkloads ["w1", "w2"], Call.Wait,
       Call.Delete "demo"] :=
  (cleanup_wait_failure_deletes_group
    { allSucceed ["w1", "w2"] with wait := some ⟨"failed to delete w2"⟩ } "demo"
    ["w1", "w2"] ⟨"failed to delete w2"⟩ rfl rfl rfl (by decide) rfl rfl rfl).1

/-- C14: on every run of `cleanupSpecificGroup` for an existing group with a non-empty
member list where all steps succeed, the method calls on the collaborators are, in order,
Exists, ListWorkloadsInGroup, DeleteWorkloads, Wait, Delete (the two managers being obtained
before their first use); DeleteWorkloads receives exactly the list that
ListWorkloadsInGroup returned; and Delete happens only as the last call, right after
Wait. -/
theorem cleanup_success_call_order (o : Outcomes) (g : String) (names : List String)
    (hm : o.groupsNewManager = none) (hex : o.groupExists = (true, none))
    (hlist : o.listWorkloadsInGroup = (names, none)) (hnames : names ≠ [])
    (hwm : o.workloadsNewManager = none) (hdw : o.deleteWorkloads = none)
    (hwait : o.wait = none) :
    cleanupSpecificGroup o g =
      [Call.groupsNewManager, Call.Exists g, Call.ListWorkloadsInGroup g,
       Call.workloadsNewManager, Call.DeleteWorkloads names, Call.Wait, Call.Delete g] ∧
    methodCalls (cleanupSpecificGroup o g) =
      [Call.Exists g, Call.ListWorkloadsInGroup g, Call.DeleteWorkloads names, Call.Wait,
       Call.Delete g] ∧
    (∃ before, cleanupSpecificGroup o g = before ++ [Call.Wait, Call.Delete g] ∧
      Call.Delete g ∉ before) := by
  have _hsucceeded := hwait
  have hshape := cleanup_of_existing o g hm hex
  have h1 : ¬ (o.listWorkloadsInGroup.2 ≠ none ∨ o.listWorkloadsInGroup.1 = []) := by
    rw [hlist]
    simp [hnames]
  have h2 : ¬ (o.workloadsNewManager ≠ none) := by simp [hwm]
  have h3 : ¬ (o.deleteWorkloads ≠ none) := by simp [hdw]
  rw [if_neg h1, if_neg h2, if_neg h3, hlist] at hshape
  refine ⟨hshape, ?_, ?_⟩
  · rw [hshape]
    simp [methodCalls, Call.obtainsManager]
  · refine ⟨[Call.groupsNewManager, Call.Exists g, Call.ListWorkloadsInGroup g,
      Call.workloadsNewManager, Call.DeleteWorkloads names], ?_, ?_⟩
    · rw [hshape]
      rfl
    · simp

/-- Witness for C14: a group with the members w1 and w2. -/
theorem cleanup_success_call_order_witness :
    methodCalls (cleanupSpecificGroup (allSucceed ["w1", "w2"]) "demo") =
      [Call.Exists "demo", Call.ListWorkloadsInGroup "demo",
       Call.DeleteWorkloads ["w1", "w2"], Call.Wait, Call.Delete "demo"] :=
  (cleanup_success_call_order (allSucceed ["w1", "w2"]) "demo" ["w1", "w2"]
    rfl rfl rfl (by decide) rfl rfl rfl).2.1

/-- The error `StopAndRemoveMCPServer` returns, from the result of its `rm` command. -/
theorem stopAndRemove_eq (host : Host σ) (config : TestConfig) (serverName : String) (w : σ) :
    (StopAndRemoveMCPServer host config serverName w).1 =
      match (rmResult host config serverName w).err with
      | some err =>
        if strings.Contains (rmResult host config serverName w).stderr "not found" then none
        else some err
      | none => none := by
  unfold StopAndRemoveMCPServer rmResult
  simp only []
  split
  · split <;> rfl
  · rfl

/-- C15: `StopAndRemoveMCPServer` returns nil whenever the rm command succeeds or fails
with a standard error containing "not found", and rm's error in every other case; the
result is determined by the result of rm alone, so two runs whose rm commands end alike
return the same, whatever their stop commands returned. -/
theorem stopAndRemove_tolerates_missing (host : Host σ) (config : TestConfig)
    (serverName : String) (w : σ) :
    ((rmResult host config serverName w).err = none →
      (StopAndRemoveMCPServer host config serverName w).1 = none) ∧
    (∀ err, (rmResult host config serverName w).err = some err →
      strings.Contains (rmResult host config serverName w).stderr "not found" →
      (StopAndRemoveMCPServer host config serverName w).1 = none) ∧
    (∀ err, (rmResult host config serverName w).err = some err →
      ¬ strings.Contains (rmResult host config serverName w).stderr "not found" →
      (StopAndRemoveMCPServer host config serverName w).1 = some err) ∧
    (∀ (τ : Type) (host' : Host τ) (config' : TestConfig) (serverName' : String) (w' : τ),
      rmResult host' config' serverName' w' = rmResult host config serverName w →
      (StopAndRemoveMCPServer host' config' serverName' w').1 =
        (StopAndRemoveMCPServer host config serverName w).1) := by
  have h := stopAndRemove_eq host config serverName w
  refine ⟨?_, ?_, ?_, ?_⟩
  · intro hrm
    rw [h, hrm]
  · intro err hrm hnf
    rw [h, hrm]
    exact if_pos hnf
  · intro err hrm hnf
    rw [h, hrm]
    exact if_neg hnf
  · intro τ host' config' serverName' w' hsame
    rw [h, stopAndRemove_eq host' config' serverName' w', hsame]

/-- Witness for C15: rm fails with "not found" in its standard error and the helper returns
nil; rm fails otherwise and the helper returns rm's error; in both cases it returns the same
whether stop failed or succeeded. -/
theorem stopAndRemove_tolerates_missing_witness :
    (StopAndRemoveMCPServer (sampleHost (some ⟨"exit status 1"⟩) "Error: workload demo not found")
      sampleTestConfig "demo" 0).1 = none ∧
    (StopAndRemoveMCPServer (sampleHost (some ⟨"exit status 1"⟩) "Error: permission denied")
      sampleTestConfig "demo" 0).1 = some ⟨"exit status 1"⟩ ∧
    (StopAndRemoveMCPServer (sampleHost none "Error: permission denied")
        sampleTestConfig "demo" 0).1 =
      (StopAndRemoveMCPServer (sampleHost (some ⟨"exit status 1"⟩) "Error: permission denied")
        sampleTestConfig "demo" 0).1 :=
  ⟨(stopAndRemove_tolerates_missing (sampleHost (some ⟨"exit status 1"⟩)
      "Error: workload demo not found") sampleTestConfig "demo" 0).2.1 ⟨"exit status 1"⟩ rfl
      (by decide),
   (stopAndRemove_tolerates_missing (sampleHost (some ⟨"exit status 1"⟩)
      "Error: permission denied") sampleTestConfig "demo" 0).2.2.1 ⟨"exit status 1"⟩ rfl
      (by decide),
   (stopAndRemove_tolerates_missing (sampleHost (some ⟨"exit status 1"⟩)
      "Error: permission denied") sampleTestConfig "demo" 0).2.2.2 Nat
      (sampleHost none "Error: permission denied") sampleTestConfig "demo" 0 rfl⟩

end e2e

/-! ## Bulk deletion -/

namespace workloads

theorem launchAll_attempted (deleteOne : String → Option GoError) (names : List String) :
    (launchAll deleteOne names).1 = names := by
  induction names with
  | nil => rfl
  | cons name rest ih =>
    unfold launchAll
    cases h : deleteOne name <;> simp [ih]

theorem mem_launchAll_failures (deleteOne : String → Option GoError) (names : List String)
    (n : String) (e : GoError) :
    (n, e) ∈ (launchAll deleteOne names).2 ↔ n ∈ names ∧ deleteOne n = some e := by
  induction names with
  | nil => simp [launchAll]
  | cons name rest ih =>
    unfold launchAll
    cases h : deleteOne name with
    | none =>
      simp only [ih, List.mem_cons]
      constructor
      · rintro ⟨hn, he⟩
        exact ⟨Or.inr hn, he⟩
      · rintro ⟨hn | hn, he⟩
        · rw [hn, h] at he
          cases he
        · exact ⟨hn, he⟩
    | some err =>
      simp only [ih, List.mem_cons, Prod.mk.injEq]
      constructor
      · rintro (⟨hn, he⟩ | ⟨hn, he⟩)
        · refine ⟨Or.inl hn, ?_⟩
          rw [hn, h, he]
        · exact ⟨Or.inr hn, he⟩
      · rintro ⟨hn | hn, he⟩
        · left
          refine ⟨hn, ?_⟩
          rw [hn, h] at he
          exact (Option.some.inj he).symm
        · exact Or.inr ⟨hn, he⟩

theorem wait_eq (g : DeletionGroup) :
    g.Wait = if g.failures = [] then none else some { failures := g.failures } := by
  unfold DeletionGroup.Wait
  cases g.failures <;> simp

/-- C17: the handle returned by `DeleteWorkloads` aggregates every per-workload failure.
For every list of names and every outcome of the single deletions, `Wait` returns nil if
and only if all deletions succeeded; otherwise it returns one combined error whose entries
are exactly the failed members with their errors; and every named workload is attempted,
whichever of the others fail. -/
theorem deleteWorkloads_wait_aggregates (deleteOne : String → Option GoError)
    (names : List String) :
    ((DeleteWorkloads deleteOne names).Wait = none ↔ ∀ n ∈ names, deleteOne n = none) ∧
    (∀ n ∈ names, ∀ e, deleteOne n = some e →
      ∃ agg, (DeleteWorkloads deleteOne names).Wait = some agg ∧ (n, e) ∈ agg.failures) ∧
    (∀ agg, (DeleteWorkloads deleteOne names).Wait = some agg →
      ∀ n e, (n, e) ∈ agg.failures ↔ n ∈ names ∧ deleteOne n = some e) ∧
    (DeleteWorkloads deleteOne names).attempted = names := by
  have hw := wait_eq (DeleteWorkloads deleteOne names)
  have hf : (DeleteWorkloads deleteOne names).failures = (launchAll deleteOne names).2 := rfl
  refine ⟨?_, ?_, ?_, launchAll_attempted deleteOne names⟩
  · rw [hw, hf]
    constructor
    · intro h n hn
      by_cases hempty : (launchAll deleteOne names).2 = []
      · cases hd : deleteOne n with
        | none => rfl
        | some e =>
          have hmem := (mem_launchAll_failures deleteOne names n e).2 ⟨hn, hd⟩
          rw [hempty] at hmem
          cases hmem
      · rw [if_neg hempty] at h
        cases h
    · intro h
      have hempty : (launchAll deleteOne names).2 = [] := by
        apply List.eq_nil_iff_forall_not_mem.2
        rintro ⟨n, e⟩ hmem
        have hx := (mem_launchAll_failures deleteOne names n e).1 hmem
        rw [h n hx.1] at hx
        cases hx.2
      rw [if_pos hempty]
  · intro n hn e hd
    have hmem := (mem_launchAll_failures deleteOne names n e).2 ⟨hn, hd⟩
    have hne : (launchAll deleteOne names).2 ≠ [] := List.ne_nil_of_mem hmem
    rw [hw, hf, if_neg hne]
    exact ⟨_, rfl, hmem⟩
  · intro agg hagg n e
    rw [hw, hf] at hagg
    by_cases hempty : (launchAll deleteOne names).2 = []
    · rw [if_pos hempty] at hagg
      cases hagg
    · rw [if_neg hempty] at hagg
      cases hagg
      exact mem_launchAll_failures deleteOne names n e

/-- Witness for C17: of four workloads the second and the fourth fail; all four are
attempted and `Wait` returns the combined error with both failures. -/
theorem deleteWorkloads_wait_aggregates_witness :
    (DeleteWorkloads sampleDeleteOne ["w1", "w2", "w3", "w4"]).Wait =
      some { failures := [("w2", ⟨"deployer: stop w2: timeout"⟩),
                          ("w4", ⟨"deployer: stop w4: no such container"⟩)] } ∧
    (DeleteWorkloads sampleDeleteOne ["w1", "w2", "w3", "w4"]).attempted =
      ["w1", "w2", "w3", "w4"] ∧
    ((DeleteWorkloads sampleDeleteOne ["w1", "w3"]).Wait = none ↔
      ∀ n ∈ ["w1", "w3"], sampleDeleteOne n = none) :=
  ⟨by decide,
   (deleteWorkloads_wait_aggregates sampleDeleteOne ["w1", "w2", "w3", "w4"]).2.2.2,
   (deleteWorkloads_wait_aggregates sampleDeleteOne ["w1", "w3"]).1⟩

end workloads

end Toolhive

namespace Toolhive

/-! ## `handleGetBackendData` -/

namespace mcpserver

/-- The run of `handleGetBackendData` for a call with an Authorization header, once the
backend request has been created. -/
theorem handle_of_created (env : Env) (req : CallToolRequest) (backendURL : String)
    (hh : req.Header.Get "Authorization" ≠ "")
    (hc : env.newRequestError "GET" (backendURL ++ "/api/data") = none) :
    handleGetBackendData env req backendURL =
      match env.clientDo (forwardedRequest req backendURL) with
      | .error err =>
        { result := some (NewToolResultError ("❌ Backend request failed: " ++ err.msg)),
          err := none, sent := [forwardedRequest req backendURL] }
      | .ok resp =>
        match resp.Body with
        | .error err =>
          { result := some (NewToolResultError ("❌ Failed to read response: " ++ err.msg)),
            err := none, sent := [forwardedRequest req backendURL] }
        | .ok body =>
          if resp.StatusCode = 200 then
            { result := some (NewToolResultText
                ("✅ Backend Data Retrieved Successfully!\n\nHTTP " ++ intD resp.StatusCode
                  ++ "\n\n" ++ responseText env body)),
              err := none, sent := [forwardedRequest req backendURL] }
          else
            { result := some (NewToolResultError
                ("❌ Backend Call Failed\n\nHTTP " ++ intD resp.StatusCode ++ "\n\n"
                  ++ responseText env body)),
              err := none, sent := [forwardedRequest req backendURL] } := by
  unfold handleGetBackendData NewRequestWithContext
  simp only [if_neg hh, hc]
  rfl

/-- The run of `handleGetBackendData` when the backend request cannot be created. -/
theorem handle_of_not_created (env : Env) (req : CallToolRequest) (backendURL : String)
    (err : GoError) (hh : req.Header.Get "Authorization" ≠ "")
    (hc : env.newRequestError "GET" (backendURL ++ "/api/data") = some err) :
    handleGetBackendData env req backendURL =
      { result := some (NewToolResultError ("❌ Failed to create request: " ++ err.msg)),
        err := none, sent := [] } := by
  unfold handleGetBackendData NewRequestWithContext
  simp only [if_neg hh, hc]

/-- The run of `handleGetBackendData` for a call without an Authorization header. -/
theorem handle_of_no_header (env : Env) (req : CallToolRequest) (backendURL : String)
    (hh : req.Header.Get "Authorization" = "") :
    handleGetBackendData env req backendURL =
      { result := some (NewToolResultText "⚠️  No Authorization header found in request"),
        err := none, sent := [] } := by
  unfold handleGetBackendData
  simp only [if_pos hh]

/-- Once the backend request has been created, it is the one request sent, and the run
ends with a tool result and a nil error. -/
theorem handle_created_shape (env : Env) (req : CallToolRequest) (backendURL : String)
    (hh : req.Header.Get "Authorization" ≠ "")
    (hc : env.newRequestError "GET" (backendURL ++ "/api/data") = none) :
    ∃ res, handleGetBackendData env req backendURL =
      { result := some res, err := none, sent := [forwardedRequest req backendURL] } := by
  rw [handle_of_created env req backendURL hh hc]
  rcases hdo : env.clientDo (forwardedRequest req backendURL) with err | resp
  · exact ⟨_, rfl⟩
  · rcases hb : resp.Body with err | body
    · simp only [hb]
      exact ⟨_, rfl⟩
    · simp only [hb]
      split <;> exact ⟨_, rfl⟩

theorem handle_err_nil (env : Env) (req : CallToolRequest) (backendURL : String) :
    (handleGetBackendData env req backendURL).err = none ∧
    (handleGetBackendData env req backendURL).result ≠ none := by
  by_cases hh : req.Header.Get "Authorization" = ""
  · rw [handle_of_no_header env req backendURL hh]
    exact ⟨rfl, by simp⟩
  · cases hc : env.newRequestError "GET" (backendURL ++ "/api/data") with
    | some err =>
      rw [handle_of_not_created env req backendURL err hh hc]
      exact ⟨rfl, by simp⟩
    | none =>
      obtain ⟨res, hres⟩ := handle_created_shape env req backendURL hh hc
      rw [hres]
      exact ⟨rfl, by simp⟩

/-! ## Claims about the demo MCP server -/

/-- C16, counterexample: the backend URL ends in a line feed, so
`http.NewRequestWithContext` refuses `backendURL + "/api/data"`; a tool call carrying the
header "Bearer abc" then issues no backend request at all and gets the error tool result
"Failed to create request". -/
theorem handle_bad_url_sends_nothing :
    (sampleCall "Bearer abc").Header.Get "Authorization" = "Bearer abc" ∧
    (handleGetBackendData (refusingEnv "http://localhost:8090\n/api/data" badURLError)
      (sampleCall "Bearer abc") "http://localhost:8090\n").sent = [] ∧
    (handleGetBackendData (refusingEnv "http://localhost:8090\n/api/data" badURLError)
      (sampleCall "Bearer abc") "http://localhost:8090\n").result =
      some (NewToolResultError
        "❌ Failed to create request: parse \"http://localhost:8090\\n/api/data\": net/url: invalid control character in URL") := by
  have hrun := handle_of_not_created
    (refusingEnv "http://localhost:8090\n/api/data" badURLError) (sampleCall "Bearer abc")
    "http://localhost:8090\n" badURLError (by decide) (by decide)
  rw [hrun]
  exact ⟨by decide, rfl, rfl⟩

/-- C16, amended: for every tool call carrying a non-empty Authorization header h for which
the backend request can be created (`http.NewRequestWithContext` accepts
`backendURL + "/api/data"`), `handleGetBackendData` calls `client.Do` exactly once, with a
GET request for `backendURL + "/api/data"` whose only header field is Authorization, set to
h unchanged: the handler re-encodes, trims and rewrites nothing.  When the request cannot
be created, `client.Do` is not called and the result is the error tool result
"Failed to create request".  What the HTTP client puts on the wire for the one call is not
part of the statement. -/
theorem handle_forwards_authorization (env : Env) (req : CallToolRequest)
    (backendURL h : String)
    (hh : req.Header.Get "Authorization" = h) (hne : h ≠ "") :
    (env.newRequestError "GET" (backendURL ++ "/api/data") = none →
      (handleGetBackendData env req backendURL).sent =
        [{ Method := "GET", URL := backendURL ++ "/api/data",
           Header := [("Authorization", h)] }] ∧
      (∀ sent ∈ (handleGetBackendData env req backendURL).sent,
        sent.Header.Get "Authorization" = h)) ∧
    (∀ err, env.newRequestError "GET" (backendURL ++ "/api/data") = some err →
      (handleGetBackendData env req backendURL).sent = [] ∧
      (handleGetBackendData env req backendURL).result =
        some (NewToolResultError ("❌ Failed to create request: " ++ err.msg))) := by
  have hh' : req.Header.Get "Authorization" ≠ "" := by
    rw [hh]
    exact hne
  have hfwd : forwardedRequest req backendURL =
      { Method := "GET", URL := backendURL ++ "/api/data",
        Header := [("Authorization", h)] } := by
    unfold forwardedRequest
    rw [hh]
  have hget : Header.Get [("Authorization", h)] "Authorization" = h := by
    have hkey : ("Authorization" == "Authorization") = true := by decide
    simp only [Header.Get, List.lookup, hkey]
  constructor
  · intro hc
    have hsent : (handleGetBackendData env req backendURL).sent =
        [forwardedRequest req backendURL] := by
      obtain ⟨res, hres⟩ := handle_created_shape env req backendURL hh' hc
      rw [hres]
    rw [hsent, hfwd]
    refine ⟨rfl, ?_⟩
    intro sent hmem
    rw [List.mem_singleton] at hmem
    rw [hmem]
    exact hget
  · intro err hc
    rw [handle_of_not_created env req backendURL err hh' hc]
    exact ⟨rfl, rfl⟩

/-- Witness for C16 as amended: the header "Bearer abc" is handed to `client.Do` unchanged,
in the one request. -/
theorem handle_forwards_authorization_witness :
    (handleGetBackendData (sampleEnv 200 "ok") (sampleCall "Bearer abc")
      "http://localhost:8090").sent =
      [{ Method := "GET", URL := "http://localhost:8090/api/data",
         Header := [("Authorization", "Bearer abc")] }] :=
  ((handle_forwards_authorization (sampleEnv 200 "ok") (sampleCall "Bearer abc")
    "http://localhost:8090" "Bearer abc" (by decide) (by decide)).1 (by decide)).1

/-- C19, counterexample: the backend answers 500 with the JSON body `\x7b"a":1\x7d`; the
error tool result shows the body re-indented, and its text does not contain the response
body text. -/
theorem handle_error_text_lacks_raw_body :
    (handleGetBackendData (sampleEnv 500 "\x7b\"a\":1\x7d") (sampleCall "Bearer abc")
      "http://localhost:8090").result =
      some (NewToolResultError
        "❌ Backend Call Failed\n\nHTTP 500\n\n\x7b\n  \"a\": 1\n\x7d") ∧
    ¬ strings.Contains
      "❌ Backend Call Failed\n\nHTTP 500\n\n\x7b\n  \"a\": 1\n\x7d" "\x7b\"a\":1\x7d" := by
  decide

/-- C19, amended: `handleGetBackendData` never returns a non-nil Go error and always returns
a tool result.  When the backend call completes (the request is created, `client.Do`
returns a response and its body is read), the result is a success (text) result if and only
if the status is exactly 200; every other status yields the error tool result
"Backend Call Failed", whose text contains the status code and the response text, which is
the body re-indented by `json.MarshalIndent` when the body is valid JSON and the body
itself otherwise. -/
theorem handle_result_by_status (env : Env) (req : CallToolRequest) (backendURL : String) :
    (handleGetBackendData env req backendURL).err = none ∧
    (handleGetBackendData env req backendURL).result ≠ none ∧
    (∀ (resp : HTTPResponse) (body : String),
      req.Header.Get "Authorization" ≠ "" →
      env.newRequestError "GET" (backendURL ++ "/api/data") = none →
      env.clientDo (forwardedRequest req backendURL) = .ok resp →
      resp.Body = .ok body →
      ∃ res, (handleGetBackendData env req backendURL).result = some res ∧
        (res.IsError = false ↔ resp.StatusCode = 200) ∧
        (resp.StatusCode ≠ 200 →
          res = NewToolResultError ("❌ Backend Call Failed\n\nHTTP " ++ intD resp.StatusCode
            ++ "\n\n" ++ responseText env body)) ∧
        strings.Contains res.Text (intD resp.StatusCode) ∧
        strings.Contains res.Text (responseText env body) ∧
        (env.prettyJSON body = none → strings.Contains res.Text body) ∧
        (∀ pretty, env.prettyJSON body = some pretty → strings.Contains res.Text pretty)) := by
  refine ⟨(handle_err_nil env req backendURL).1, (handle_err_nil env req backendURL).2, ?_⟩
  intro resp body hh hc hdo hbody
  have hrt_none : env.prettyJSON body = none → responseText env body = body := by
    intro hp
    unfold responseText
    rw [hp]
  have hrt_some : ∀ pretty, env.prettyJSON body = some pretty →
      responseText env body = pretty := by
    intro pretty hp
    unfold responseText
    rw [hp]
  have hcode : ∀ head : String, strings.Contains
      (head ++ intD resp.StatusCode ++ "\n\n" ++ responseText env body)
      (intD resp.StatusCode) := by
    intro head
    apply strings.contains_append_right
    apply strings.contains_append_right
    exact strings.contains_append_self _ _
  have htext : ∀ head : String, strings.Contains
      (head ++ intD resp.StatusCode ++ "\n\n" ++ responseText env body)
      (responseText env body) := fun head => strings.contains_append_self _ _
  rw [handle_of_created env req backendURL hh hc, hdo]
  simp only [hbody]
  by_cases hs : resp.StatusCode = 200
  · rw [if_pos hs]
    refine ⟨_, rfl, ⟨fun _ => hs, fun _ => rfl⟩, fun hn => absurd hs hn, hcode _, htext _,
      ?_, ?_⟩
    · intro hp
      have := htext "✅ Backend Data Retrieved Successfully!\n\nHTTP "
      rw [hrt_none hp] at this
      rw [hrt_none hp]
      exact this
    · intro pretty hp
      have := htext "✅ Backend Data Retrieved Successfully!\n\nHTTP "
      rw [hrt_some pretty hp] at this
      rw [hrt_some pretty hp]
      exact this
  · rw [if_neg hs]
    refine ⟨_, rfl, ⟨fun hx => absurd hx (by simp [NewToolResultError]), fun hx => absurd hx hs⟩,
      fun _ => rfl, hcode _, htext _, ?_, ?_⟩
    · intro hp
      have := htext "❌ Backend Call Failed\n\nHTTP "
      rw [hrt_none hp] at this
      rw [hrt_none hp]
      exact this
    · intro pretty hp
      have := htext "❌ Backend Call Failed\n\nHTTP "
      rw [hrt_some pretty hp] at this
      rw [hrt_some pretty hp]
      exact this

/-- Witness for C19 as amended: the backend's 401 with a body that is not JSON gives an
error tool result, the status 200 a text result. -/
theorem handle_result_by_status_witness :
    (∃ res, (handleGetBackendData (sampleEnv 401 "unauthorized") (sampleCall "Bearer abc")
        "http://localhost:8090").result = some res ∧
      res = NewToolResultError "❌ Backend Call Failed\n\nHTTP 401\n\nunauthorized") ∧
    (∃ res, (handleGetBackendData (sampleEnv 200 "fine") (sampleCall "Bearer abc")
        "http://localhost:8090").result = some res ∧
      (res.IsError = false ↔ (200 : Int) = 200)) := by
  obtain ⟨res, hres, -, hfail, -⟩ := (handle_result_by_status (sampleEnv 401 "unauthorized")
    (sampleCall "Bearer abc") "http://localhost:8090").2.2
    { StatusCode := 401, Body := .ok "unauthorized" } "unauthorized"
    (by decide) (by decide) rfl rfl
  obtain ⟨res', hres', hiff, -⟩ := (handle_result_by_status (sampleEnv 200 "fine")
    (sampleCall "Bearer abc") "http://localhost:8090").2.2
    { StatusCode := 200, Body := .ok "fine" } "fine"
    (by decide) (by decide) rfl rfl
  refine ⟨⟨res, hres, ?_⟩, ⟨res', hres', hiff⟩⟩
  rw [hfail (by decide)]
  decide

/-- C20: for every tool call whose Authorization header is empty or absent,
`handleGetBackendData` makes no request to the backend and returns, with a nil error, the
non-error text result "No Authorization header found in request". -/
theorem handle_without_authorization (env : Env) (req : CallToolRequest)
    (backendURL : String) (hh : req.Header.Get "Authorization" = "") :
    (handleGetBackendData env req backendURL).sent = [] ∧
    (handleGetBackendData env req backendURL).err = none ∧
    (∃ res, (handleGetBackendData env req backendURL).result = some res ∧
      res.IsError = false ∧
      res.Text = "⚠️  No Authorization header found in request" ∧
      strings.Contains res.Text "No Authorization header found") := by
  rw [handle_of_no_header env req backendURL hh]
  exact ⟨rfl, rfl, _, rfl, rfl, rfl, by decide⟩

/-- Witness for C20: a call without any header, and a call whose Authorization header is
empty. -/
theorem handle_without_authorization_witness :
    (handleGetBackendData (sampleEnv 200 "ok") { Header := [] }
      "http://localhost:8090").sent = [] ∧
    (handleGetBackendData (sampleEnv 200 "ok") (sampleCall "")
      "http://localhost:8090").sent = [] :=
  ⟨(handle_without_authorization (sampleEnv 200 "ok") { Header := [] }
      "http://localhost:8090" (by decide)).1,
   (handle_without_authorization (sampleEnv 200 "ok") (sampleCall "")
      "http://localhost:8090" (by decide)).1⟩

end mcpserver

end Toolhive



namespace Toolhive

/-! ## `GetMCPServerURL` -/

namespace e2e

variable {σ : Type}

theorem scanParts_eq_find (parts : List String) :
    scanParts parts = parts.find? isURLField := by
  induction parts with
  | nil => rfl
  | cons part parts ih =>
    unfold scanParts
    rw [List.find?_cons]
    by_cases h : (strings.HasPrefix part "http://" || strings.HasPrefix part "https://") = true
    · have h' : isURLField part = true := h
      rw [if_pos h, h']
    · have h' : isURLField part = false := by
        unfold isURLField
        exact Bool.not_eq_true _ ▸ h
      rw [if_neg h, h', ih]

/-- The two loops of `GetMCPServerURL` find the URL of the specification. -/
theorem scanLines_eq_find (serverName : String) (lines : List String) :
    scanLines serverName lines =
      ((lines.filter (fun line => decide (strings.Contains line serverName))).flatMap
        strings.Fields).find? isURLField := by
  induction lines with
  | nil => rfl
  | cons line lines ih =>
    unfold scanLines
    rw [List.filter_cons]
    by_cases h : strings.Contains line serverName
    · have hd : decide (strings.Contains line serverName) = true := decide_eq_true h
      rw [if_pos h, if_pos hd, List.flatMap_cons, List.find?_append, scanParts_eq_find, ih]
      cases List.find? isURLField (strings.Fields line) <;> rfl
    · have hd : ¬ (decide (strings.Contains line serverName) = true) := by
        simpa using h
      rw [if_neg h, if_neg hd, ih]

/-- The result of `GetMCPServerURL`, from the result of its `list` command. -/
theorem getMCPServerURL_eq (host : Host σ) (config : TestConfig) (serverName : String)
    (w : σ) :
    (GetMCPServerURL host config serverName w).1 =
      match (listResult host config w).err with
      | some err => ("", some ⟨"failed to list servers: " ++ err.msg⟩)
      | none =>
        match firstURLField (listResult host config w).stdout serverName with
        | some url => (url, none)
        | none =>
          ("", some ⟨"could not find URL for server " ++ serverName ++ " in output: "
            ++ (listResult host config w).stdout⟩) := by
  unfold GetMCPServerURL listResult firstURLField
  simp only [scanLines_eq_find]
  split
  · rfl
  · split <;> rfl

/-- When `ListWorkloadsInGroup` has no member to report, the workload manager is neither
created nor used. -/
theorem cleanup_no_members_no_workload_calls (o : Outcomes) (g : String)
    (h : o.listWorkloadsInGroup.1 = []) :
    Call.workloadsNewManager ∉ cleanupSpecificGroup o g ∧
    ∀ names, Call.DeleteWorkloads names ∉ cleanupSpecificGroup o g := by
  cases o with
  | mk gm ex lw wm dw wt dl =>
    cases lw with
    | mk names lerr =>
      have hnames : names = [] := h
      subst hnames
      cases gm <;> cases lerr <;> simp [cleanupSpecificGroup] <;> split_ifs <;> simp

/-- The only group `cleanupSpecificGroup` deletes is the one it was called for. -/
theorem cleanup_deletes_only_its_group (o : Outcomes) (g g' : String)
    (h : Call.Delete g' ∈ cleanupSpecificGroup o g) : g' = g := by
  cases o with
  | mk gm ex lw wm dw wt dl =>
    cases gm <;> cases wm <;> cases dw <;> cases wt <;> cases lw with
    | mk names lerr =>
      cases lerr <;> simp only [cleanupSpecificGroup] at h <;> (try split_ifs at h) <;>
        simp at h <;> (try exact h)

/-! ## Further claims about the e2e helpers -/

/-- C21: for every successful `list` output and server name, `GetMCPServerURL` returns,
with a nil error, the first field beginning with "http://" or "https://" met when the lines
that contain serverName are scanned top to bottom and their white-space-separated fields
left to right; it returns an error if and only if the list command failed or no such
field exists; and any value it returns with a nil error begins with "http://" or
"https://". -/
theorem getMCPServerURL_returns_first_url (host : Host σ) (config : TestConfig)
    (serverName : String) (w : σ) :
    ((listResult host config w).err = none →
      ∀ url, firstURLField (listResult host config w).stdout serverName = some url →
        (GetMCPServerURL host config serverName w).1 = (url, none)) ∧
    ((GetMCPServerURL host config serverName w).1.2 ≠ none ↔
      (listResult host config w).err ≠ none ∨
        firstURLField (listResult host config w).stdout serverName = none) ∧
    (∀ err, (listResult host config w).err = some err →
      (GetMCPServerURL host config serverName w).1 =
        ("", some ⟨"failed to list servers: " ++ err.msg⟩)) ∧
    (∀ url, (GetMCPServerURL host config serverName w).1 = (url, none) →
      strings.HasPrefix url "http://" = true ∨ strings.HasPrefix url "https://" = true) := by
  have h := getMCPServerURL_eq host config serverName w
  cases herr : (listResult host config w).err with
  | some err =>
    rw [herr] at h
    refine ⟨fun hx => (by cases hx), ?_, ?_, ?_⟩
    · rw [h]
      exact ⟨fun _ => Or.inl (by simp), fun _ => (by simp)⟩
    · intro err' herr'
      cases herr'
      exact h
    · intro url hu
      rw [h] at hu
      cases hu
  | none =>
    rw [herr] at h
    cases hfirst : firstURLField (listResult host config w).stdout serverName with
    | none =>
      rw [hfirst] at h
      refine ⟨fun _ url hx => (by cases hx), ?_, fun err hx => (by cases hx), ?_⟩
      · rw [h]
        exact ⟨fun _ => Or.inr rfl, fun _ => (by simp)⟩
      · intro url hu
        rw [h] at hu
        cases hu
    | some found =>
      rw [hfirst] at h
      refine ⟨?_, ?_, fun err hx => (by cases hx), ?_⟩
      · intro _ url hu
        cases hu
        exact h
      · rw [h]
        constructor
        · intro hx
          exact absurd rfl hx
        · rintro (hx | hx)
          · exact absurd rfl hx
          · cases hx
      · intro url hu
        rw [h] at hu
        cases hu
        have hp := List.find?_some hfirst
        unfold isURLField at hp
        rw [Bool.or_eq_true] at hp
        exact hp

/-- Witness for C21: in the line of the server "osv" the field `ftp://x` is passed over and
the first of the two URL fields is returned; the header line, which does not hold the
name, is not searched. -/
theorem getMCPServerURL_returns_first_url_witness :
    (GetMCPServerURL (listingHost sampleListing) sampleTestConfig "osv" 0).1 =
      ("https://h:2", none) ∧
    ((GetMCPServerURL (listingHost sampleListing) sampleTestConfig "absent" 0).1.2 ≠ none ↔
      (listResult (listingHost sampleListing) sampleTestConfig 0).err ≠ none ∨
        firstURLField (listResult (listingHost sampleListing) sampleTestConfig 0).stdout
          "absent" = none) :=
  ⟨(getMCPServerURL_returns_first_url (listingHost sampleListing) sampleTestConfig "osv" 0).1
      rfl "https://h:2" (by decide),
   (getMCPServerURL_returns_first_url (listingHost sampleListing) sampleTestConfig
      "absent" 0).2.1⟩

/-- C24: for every combination of collaborator outcomes, one call of `cleanupSpecificGroup`
calls `groupManager.Delete` at most once, and only for its own group; it calls it exactly
once when `Exists` returns (true, nil) and never when `Exists` returns false or an error;
and when `ListWorkloadsInGroup` returns an empty list it neither creates the workload
manager nor calls `DeleteWorkloads`. -/
theorem cleanup_delete_at_most_once (o : Outcomes) (g : String) :
    deleteCount (cleanupSpecificGroup o g) g ≤ 1 ∧
    (∀ g', Call.Delete g' ∈ cleanupSpecificGroup o g → g' = g) ∧
    (o.groupsNewManager = none → o.groupExists = (true, none) →
      deleteCount (cleanupSpecificGroup o g) g = 1) ∧
    (o.groupExists.1 = false ∨ o.groupExists.2 ≠ none →
      deleteCount (cleanupSpecificGroup o g) g = 0 ∧
      Call.Delete g ∉ cleanupSpecificGroup o g) ∧
    (o.listWorkloadsInGroup.1 = [] →
      Call.workloadsNewManager ∉ cleanupSpecificGroup o g ∧
      ∀ names, Call.DeleteWorkloads names ∉ cleanupSpecificGroup o g) := by
  refine ⟨?_, fun g' h => cleanup_deletes_only_its_group o g g' h,
    fun hm hex => (cleanup_existing_deletes_once o g hm hex).1, ?_,
    cleanup_no_members_no_workload_calls o g⟩
  · by_cases habsent : o.groupsNewManager ≠ none ∨ o.groupExists.2 ≠ none ∨
        o.groupExists.1 = false
    · rw [cleanup_absent_deletes_nothing o g habsent]
      exact Nat.zero_le 1
    · have hm : o.groupsNewManager = none := by
        by_contra hx
        exact habsent (Or.inl hx)
      have hex : o.groupExists = (true, none) := by
        have h2 : o.groupExists.2 = none := by
          by_contra hx
          exact habsent (Or.inr (Or.inl hx))
        have h1 : o.groupExists.1 = true := by
          cases hb : o.groupExists.1
          · exact absurd (Or.inr (Or.inr hb)) habsent
          · rfl
        exact Prod.ext h1 h2
      exact le_of_eq (cleanup_existing_deletes_once o g hm hex).1
  · intro h
    have hcount := cleanup_absent_deletes_nothing o g
      (h.elim (fun hx => Or.inr (Or.inr hx)) (fun hx => Or.inr (Or.inl hx)))
    refine ⟨hcount, ?_⟩
    unfold deleteCount at hcount
    exact List.count_eq_zero.1 hcount

/-- Witness for C24: an existing group without members is deleted by exactly one `Delete`
and the workload manager is not created; a group that does not exist is not deleted. -/
theorem cleanup_delete_at_most_once_witness :
    deleteCount (cleanupSpecificGroup (allSucceed []) "demo") "demo" = 1 ∧
    Call.workloadsNewManager ∉ cleanupSpecificGroup (allSucceed []) "demo" ∧
    deleteCount (cleanupSpecificGroup
      { allSucceed ["w1"] with groupExists := (false, none) } "demo") "demo" = 0 :=
  ⟨(cleanup_delete_at_most_once (allSucceed []) "demo").2.2.1 rfl rfl,
   ((cleanup_delete_at_most_once (allSucceed []) "demo").2.2.2.2 rfl).1,
   ((cleanup_delete_at_most_once { allSucceed ["w1"] with groupExists := (false, none) }
      "demo").2.2.2.1 (Or.inl rfl)).1⟩

end e2e

end Toolhive

namespace Toolhive

/-! ## The gate of `requireAuth` and the handlers behind it -/

namespace backend

theorem hasPrefix_bearer_of_empty (header : String) (h : header = "") :
    strings.HasPrefix header "Bearer " = false := by
  rw [h]
  decide

/-- The run of `requireAuth` on a request whose Authorization header has the prefix. -/
theorem requireAuth_of_prefixed (parse : Parser) (s : BackendService) (r : Request)
    (h : strings.HasPrefix (r.HeaderGet "Authorization") "Bearer " = true) :
    requireAuth parse s r =
      match validateToken parse s
          (strings.TrimPrefix (r.HeaderGet "Authorization") "Bearer ") with
      | .error err =>
        { events := [.validateToken
            (strings.TrimPrefix (r.HeaderGet "Authorization") "Bearer ")],
          written := some
            { Status := StatusUnauthorized,
              ContentType := "application/json",
              Body := .json
                [("demo_note", "🚫 Token validation failed - production-ready validation!"),
                 ("details", err.msg),
                 ("error", "Token validation failed")] } }
      | .ok claims =>
        { events := [.validateToken
            (strings.TrimPrefix (r.HeaderGet "Authorization") "Bearer "),
            .next (r.WithValue "claims" claims)],
          written := none } := by
  have hne : ¬ (r.HeaderGet "Authorization" = "" ∨
      strings.HasPrefix (r.HeaderGet "Authorization") "Bearer " = false) := by
    rintro (hx | hx)
    · rw [hasPrefix_bearer_of_empty _ hx] at h
      exact absurd h (by decide)
    · rw [hx] at h
      exact absurd h (by decide)
  unfold requireAuth
  simp only [if_neg hne]

/-- The run of `requireAuth` on a request whose Authorization header lacks the prefix. -/
theorem requireAuth_of_unprefixed (parse : Parser) (s : BackendService) (r : Request)
    (h : strings.HasPrefix (r.HeaderGet "Authorization") "Bearer " = false) :
    requireAuth parse s r =
      { events := [], written := some (httpError missingHeaderText StatusUnauthorized) } :=
  requireAuth_of_no_bearer parse s r (Or.inr h)

theorem value_withValue_claims (r : Request) (c : Claims) :
    (r.WithValue "claims" c).Value "claims" = some c := by
  have hkey : ("claims" == "claims") = true := by decide
  simp only [Request.Value, Request.WithValue, List.lookup, hkey]

/-- The requests `requireAuth` hands to `next`: none, or the request with the validated
claims in its context. -/
theorem requireAuth_next_requests (parse : Parser) (s : BackendService) (r : Request) :
    (requireAuth parse s r).events.filterMap AuthEvent.next? = [] ∨
    ∃ c, validateToken parse s
        (strings.TrimPrefix (r.HeaderGet "Authorization") "Bearer ") = .ok c ∧
      strings.HasPrefix (r.HeaderGet "Authorization") "Bearer " = true ∧
      (requireAuth parse s r).events.filterMap AuthEvent.next? = [r.WithValue "claims" c] := by
  cases hp : strings.HasPrefix (r.HeaderGet "Authorization") "Bearer " with
  | false =>
    rw [requireAuth_of_unprefixed parse s r hp]
    exact Or.inl rfl
  | true =>
    rw [requireAuth_of_prefixed parse s r hp]
    cases hv : validateToken parse s
        (strings.TrimPrefix (r.HeaderGet "Authorization") "Bearer ") with
    | error err => exact Or.inl rfl
    | ok c => exact Or.inr ⟨c, rfl, rfl, rfl⟩

/-- The only route of `main` that is not wrapped in `requireAuth` is the health check. -/
theorem mainRoutes_unwrapped (path : String) (endpoint : Endpoint)
    (h : mainRoutes.lookup path = some (false, endpoint)) :
    endpoint = Endpoint.healthHandler := by
  unfold mainRoutes at h
  simp only [List.lookup] at h
  split at h
  · cases h
    rfl
  · split at h
    · cases h
    · split at h
      · cases h
      · cases h

/-- With the claims under the key "claims", neither handler fails at the lookup. -/
theorem run_with_claims (endpoint : Endpoint) (r : Request) (c : Claims)
    (h : r.Value "claims" = some c) : endpoint.run r ≠ HandlerResult.lookupPanic := by
  cases endpoint with
  | healthHandler => simp [Endpoint.run, healthHandler]
  | dataHandler => simp [Endpoint.run, dataHandler, h]
  | debugHandler =>
    simp only [Endpoint.run, debugHandler, h]
    split <;> simp

/-! ## Further claims about the demo backend service -/

/-- C22: `requireAuth` invokes the wrapped handler if and only if the Authorization header
begins with the exact prefix "Bearer " and `validateToken`, applied to the header with that
prefix removed, succeeds, and then it invokes it once; for every other request the wrapped
handler is not invoked; and when the prefix is missing (the comparison is case-sensitive)
`validateToken` is not called either: the handler makes no call at all. -/
theorem requireAuth_invokes_next_iff (parse : Parser) (s : BackendService) (r : Request) :
    ((∃ r', AuthEvent.next r' ∈ (requireAuth parse s r).events) ↔
      strings.HasPrefix (r.HeaderGet "Authorization") "Bearer " = true ∧
        ∃ c, validateToken parse s
          (strings.TrimPrefix (r.HeaderGet "Authorization") "Bearer ") = .ok c) ∧
    ((requireAuth parse s r).events.filterMap AuthEvent.next?).length ≤ 1 ∧
    (strings.HasPrefix (r.HeaderGet "Authorization") "Bearer " = false →
      (requireAuth parse s r).events = []) ∧
    (strings.HasPrefix (r.HeaderGet "Authorization") "Bearer " = true →
      ∀ err, validateToken parse s
          (strings.TrimPrefix (r.HeaderGet "Authorization") "Bearer ") = .error err →
        (requireAuth parse s r).events =
          [AuthEvent.validateToken
            (strings.TrimPrefix (r.HeaderGet "Authorization") "Bearer ")]) := by
  cases hp : strings.HasPrefix (r.HeaderGet "Authorization") "Bearer " with
  | false =>
    rw [requireAuth_of_unprefixed parse s r hp]
    refine ⟨⟨?_, ?_⟩, Nat.zero_le 1, fun _ => rfl, fun hx => (by cases hx)⟩
    · rintro ⟨r', hmem⟩
      cases hmem
    · rintro ⟨hx, -⟩
      cases hx
  | true =>
    rw [requireAuth_of_prefixed parse s r hp]
    cases hv : validateToken parse s
        (strings.TrimPrefix (r.HeaderGet "Authorization") "Bearer ") with
    | error err =>
      refine ⟨⟨?_, ?_⟩, Nat.zero_le 1, fun hx => (by cases hx), fun _ _ _ => rfl⟩
      · rintro ⟨r', hmem⟩
        simp at hmem
      · rintro ⟨-, c, hc⟩
        cases hc
    | ok c =>
      refine ⟨⟨fun _ => ⟨rfl, c, rfl⟩, fun _ => ⟨r.WithValue "claims" c, ?_⟩⟩, le_refl 1,
        fun hx => (by cases hx), fun _ err herr => (by cases herr)⟩
      simp

/-- Witness for C22: the header "bearer abc" lacks the prefix "Bearer " and the handler
makes no call, although the parser would accept the token; the header "Bearer abc" with a
valid token reaches the wrapped handler. -/
theorem requireAuth_invokes_next_iff_witness :
    (requireAuth (sampleParser (sampleClaims ["backend"] "backend-access")) sampleService
      (sampleRequest "bearer abc")).events = [] ∧
    (∃ r', AuthEvent.next r' ∈
      (requireAuth (sampleParser (sampleClaims ["backend"] "backend-access")) sampleService
        (sampleRequest "Bearer abc")).events) :=
  ⟨(requireAuth_invokes_next_iff (sampleParser (sampleClaims ["backend"] "backend-access"))
      sampleService (sampleRequest "bearer abc")).2.2.1 (by decide),
   (requireAuth_invokes_next_iff (sampleParser (sampleClaims ["backend"] "backend-access"))
      sampleService (sampleRequest "Bearer abc")).1.2
      ⟨by decide, sampleClaims ["backend"] "backend-access", rfl⟩⟩

/-- C23: for the routes registered in `main`, whenever `dataHandler` or `debugHandler` runs,
the request it receives holds, under the key "claims", the claims that `validateToken`
returned for the bearer token, so the unchecked lookup
`r.Context().Value("claims").(*Claims)` does not fail. -/
theorem protected_handlers_find_claims (parse : Parser) (s : BackendService) (path : String)
    (r r' : Request) (endpoint : Endpoint) (result : HandlerResult)
    (hrun : (endpoint, r', result) ∈ (serve parse s path r).handled)
    (hendpoint : endpoint = Endpoint.dataHandler ∨ endpoint = Endpoint.debugHandler) :
    (∃ c, r'.Value "claims" = some c ∧
      validateToken parse s
        (strings.TrimPrefix (r.HeaderGet "Authorization") "Bearer ") = .ok c) ∧
    result = endpoint.run r' ∧
    result ≠ HandlerResult.lookupPanic := by
  unfold serve at hrun
  cases hl : mainRoutes.lookup path with
  | none =>
    rw [hl] at hrun
    cases hrun
  | some route =>
    obtain ⟨wrapped, target⟩ := route
    rw [hl] at hrun
    cases wrapped with
    | false =>
      have htarget := mainRoutes_unwrapped path target hl
      simp only [List.mem_singleton, Prod.mk.injEq] at hrun
      obtain ⟨he, -, -⟩ := hrun
      rw [he, htarget] at hendpoint
      rcases hendpoint with hx | hx <;> cases hx
    | true =>
      simp only [List.mem_map] at hrun
      obtain ⟨req, hreq, heq⟩ := hrun
      rcases requireAuth_next_requests parse s r with hnone | ⟨c, hc, -, hsome⟩
      · rw [hnone] at hreq
        cases hreq
      · rw [hsome, List.mem_singleton] at hreq
        simp only [Prod.mk.injEq] at heq
        obtain ⟨he, hr', hres⟩ := heq
        have hvalue : r'.Value "claims" = some c := by
          rw [← hr', hreq]
          exact value_withValue_claims r c
        refine ⟨⟨c, hvalue, hc⟩, ?_, ?_⟩
        · rw [← hres, ← he, ← hr']
        · rw [← hres, hr']
          exact run_with_claims target r' c hvalue

/-- Witness for C23: a valid bearer token on `/api/debug` reaches `debugHandler`, which
finds the claims and answers. -/
theorem protected_handlers_find_claims_witness :
    (Endpoint.debugHandler,
      (sampleRequest "Bearer abc").WithValue "claims" (sampleClaims ["backend"] "backend-access"),
      HandlerResult.wroteDebug (sampleClaims ["backend"] "backend-access")) ∈
      (serve (sampleParser (sampleClaims ["backend"] "backend-access")) sampleService
        "/api/debug" (sampleRequest "Bearer abc")).handled ∧
    HandlerResult.wroteDebug (sampleClaims ["backend"] "backend-access") ≠
      HandlerResult.lookupPanic :=
  ⟨by decide,
   (protected_handlers_find_claims
    (sampleParser (sampleClaims ["backend"] "backend-access")) sampleService "/api/debug"
    (sampleRequest "Bearer abc")
    ((sampleRequest "Bearer abc").WithValue "claims" (sampleClaims ["backend"] "backend-access"))
    Endpoint.debugHandler (HandlerResult.wroteDebug (sampleClaims ["backend"] "backend-access"))
    (by decide) (Or.inr rfl)).2.2⟩

end backend

end Toolhive
